import Mathlib

/-!
Verification of the noclip.website Wind Waker subsystem against its
natural-language specification.

The development shallowly embeds the TypeScript sources:
  * src/WindWaker/Grass.ts        (production foliage packets)
  * src/WindWaker/d_a.ts          (grass/bush spawner actors)
  * src/Common/JSYSTEM/JStudio.ts (cutscene VM, FVB curves, paragraph parsing)
  * src/rustlib.ts                (toon-texture gain function)
  * src/j3d/WindWaker/Grass.ts    (legacy flower packet)

Numbers that the code manipulates as IEEE doubles are modelled as exact
rationals, 32-bit integer bit operations as natural-number bit operations
masked to 32 bits.  External collaborators (the boundary-query/collision
system, gl-matrix trigonometry) are abstracted as explicit oracle
parameters; every embedded definition is computable.
-/

/-! ## Shared low-level helpers -/

/-- JavaScript `x &= ~mask` on a 32-bit value: clear the bits of `mask`.
`0xFFFFFFFF ^^^ mask` is the 32-bit complement of `mask`. -/
def jsAndNot (x mask : ℕ) : ℕ := x &&& (0xFFFFFFFF ^^^ mask)

/-- Big-endian `DataView.getUint8`.  The sources only read in-bounds
offsets; out-of-bounds reads are totalized to 0. -/
def getUint8 (view : List ℕ) (i : ℕ) : ℕ := view.getD i 0

/-- Big-endian `DataView.getUint16` (the sources never pass the
little-endian flag). -/
def getUint16 (view : List ℕ) (i : ℕ) : ℕ :=
  256 * getUint8 view i + getUint8 view (i + 1)

/-- Big-endian `DataView.getUint32`. -/
def getUint32 (view : List ℕ) (i : ℕ) : ℕ :=
  16777216 * getUint8 view i + 65536 * getUint8 view (i + 1) +
    256 * getUint8 view (i + 2) + getUint8 view (i + 3)

/-- Modelled from the spec: the `align` helper from util.ts (not under
src/), used by JStudio for "payload 4-byte aligned" offsets — rounds
`value` up to the next multiple of `multiple`. -/
def align (value multiple : ℕ) : ℕ :=
  ((value + multiple - 1) / multiple) * multiple

/-! ## TParagraph.parse (src/Common/JSYSTEM/JStudio.ts:1067-1089) -/

structure TParagraph where
  type : ℕ
  dataSize : ℕ
  dataOffset : ℕ
  nextOffset : ℕ
deriving DecidableEq, Repr

/-- Embeds `TParagraph.parse`: the top bit of the first u16 selects the
16-bit (clear) or 32-bit (set) header form.  In the 32-bit form the JS
`& ~0x80000000` masks to the low 31 bits of the u32. -/
def TParagraph.parse (view : List ℕ) (byteIdx : ℕ) : TParagraph :=
  let dataSize16 := getUint16 view byteIdx
  let p : ℕ × ℕ × ℕ :=
    if dataSize16 &&& 0x8000 = 0 then
      (dataSize16, getUint16 view (byteIdx + 2), 4)
    else
      (getUint32 view byteIdx &&& 0x7FFFFFFF, getUint32 view (byteIdx + 4), 8)
  let dataSize := p.1
  let type := p.2.1
  let offset := p.2.2
  if dataSize = 0 then
    { dataSize := dataSize, type := type, dataOffset := 0, nextOffset := byteIdx + offset }
  else
    { dataSize := dataSize, type := type, dataOffset := byteIdx + offset,
      nextOffset := byteIdx + offset + align dataSize 4 }

/-! ## gain (src/rustlib.ts:242-245)

`gain` is fed the toon-texture power, an integer in 1–15, as exponent;
the exponent is therefore modelled as a natural number.  With that
modelling `Math.pow` agrees with the rational power (`Math.pow(0,0) = 1`
matches `(0:ℚ)^0 = 1`). -/

def gain (v : ℚ) (k : ℕ) : ℚ :=
  let a := (1/2) * (2 * (if v < 1/2 then v else 1 - v)) ^ k
  if v < 1/2 then a else 1 - a

/-! ## d_a_grass spawner (src/WindWaker/d_a.ts:73-224) -/

/-- World-space vectors (gl-matrix `vec3` with exact components). -/
abbrev V3 := ℚ × ℚ × ℚ

def vadd (a b : V3) : V3 := (a.1 + b.1, a.2.1 + b.2.1, a.2.2 + b.2.2)

namespace d_a_grass

/-- Embeds `kSpawnPatterns`: each entry is (offset group, instance count). -/
def kSpawnPatterns : List (ℕ × ℕ) :=
  [(0, 1), (0, 7), (1, 15), (2, 3), (3, 7), (4, 11), (5, 7), (6, 5)]

/-- Embeds `kSpawnOffsets`: the seven literal offset groups. -/
def kSpawnOffsets : List (List V3) :=
  [ [(0, 0, 0), (3, 0, -50), (-2, 0, 50), (50, 0, 27), (52, 0, -25),
     (-50, 0, 22), (-50, 0, -29)],
    [(-18, 0, 76), (-15, 0, 26), (133, 0, 0), (80, 0, 23), (86, 0, -83),
     (33, 0, -56), (83, 0, -27), (-120, 0, -26), (-18, 0, -65), (-20, 0, -21),
     (-73, 0, 1), (-67, 0, -102), (-21, 0, 126), (-120, 0, -78), (-70, 0, -49),
     (32, 0, 103), (34, 0, 51), (-72, 0, 98), (-68, 0, 47), (33, 0, -5),
     (135, 0, -53)],
    [(-75, 0, -50), (75, 0, -25), (14, 0, 106)],
    [(-24, 0, -28), (27, 0, -28), (-21, 0, 33), (-18, 0, -34), (44, 0, -4),
     (41, 0, 10), (24, 0, 39)],
    [(-55, 0, -22), (-28, 0, -50), (-77, 0, 11), (55, 0, -44), (83, 0, -71),
     (11, 0, -48), (97, 0, -34), (-74, 0, -57), (31, 0, 58), (59, 0, 30),
     (13, 0, 23), (-12, 0, 54), (55, 0, 97), (10, 0, 92), (33, 0, -10),
     (-99, 0, -27), (40, 0, -87)],
    [(0, 0, 3), (-26, 0, -29), (7, 0, -25), (31, 0, -5), (-7, 0, 40),
     (-35, 0, 15), (23, 0, 32)],
    [(-40, 0, 0), (0, 0, 0), (80, 0, 0), (-80, 0, 0), (40, 0, 0)] ]

/-- One registration performed by `subload` on a foliage packet. -/
inductive SpawnReg where
  | grass (pos : V3) (roomNo itemIdx : ℕ)
  | tree (pos : V3) (roomNo : ℕ)
  | flower (pos : V3) (isPink : Bool) (roomNo itemIdx : ℕ)
deriving DecidableEq, Repr

/-- Embeds `d_a_grass.subload`, as the list of packet registrations it
performs.  `rotY` abstracts the gl-matrix yaw rotation
`mat4.fromYRotation(rot[1] / 0x7FFF * PI)`, applied only on the Tree
branch.  `type` is two bits, so the final branch covers the white/pink
flower cases. -/
def subload (parameters : ℕ) (actorPos : V3) (rotY : V3 → V3) (roomNo : ℕ) :
    List SpawnReg :=
  let spawnPatternId := parameters &&& 0x00F
  let type := (parameters &&& 0x030) >>> 4
  let itemIdx := (parameters >>> 6) &&& 0x3F
  let pattern := kSpawnPatterns.getD spawnPatternId (0, 0)
  let offsets := kSpawnOffsets.getD pattern.1 []
  let count := pattern.2
  if type = 0 then
    (List.range count).map fun j =>
      SpawnReg.grass (vadd (offsets.getD j (0, 0, 0)) actorPos) roomNo itemIdx
  else if type = 1 then
    (List.range count).map fun j =>
      SpawnReg.tree (vadd (rotY (offsets.getD j (0, 0, 0))) actorPos) roomNo
  else
    (List.range count).map fun j =>
      SpawnReg.flower (vadd (offsets.getD j (0, 0, 0)) actorPos) (type = 3) roomNo itemIdx

end d_a_grass

/-! ## FVB ListParameter curves (src/Common/JSYSTEM/JStudio.ts:1444-1613) -/

namespace FVB

/-- Embeds `EInterpolateType` (JStudio.ts:1322-1327). -/
inductive EInterpolateType where
  | None
  | Linear
  | Plateau
  | BSpline
deriving DecidableEq, Repr

/-- The interpolation routine `prepare()` ends up storing in `interpFunc`. -/
inductive SelFn where
  | selNone
  | selLinear
  | selPlateau
  | selBSpline
deriving DecidableEq, Repr

/-- Embeds `FunctionValue_ListParameter.prepare` (JStudio.ts:1465-1483).
The TS `switch` has no `break` on the `None`, `Linear` and `Plateau`
cases, so each falls through to the next case and every valid mode's
assignment is overwritten by the final `BSpline` case, which selects
B-spline interpolation when more than 2 keys exist and linear otherwise. -/
def prepareSel (interp : EInterpolateType) (keyCount : ℕ) : SelFn :=
  match interp with
  | .None => if keyCount > 2 then .selBSpline else .selLinear
  | .Linear => if keyCount > 2 then .selBSpline else .selLinear
  | .Plateau => if keyCount > 2 then .selBSpline else .selLinear
  | .BSpline => if keyCount > 2 then .selBSpline else .selLinear

/-- Embeds `Attribute.Interpolate.Linear` (JStudio.ts:1365-1367). -/
def interpLinearFormula (t t0 v0 t1 v1 : ℚ) : ℚ :=
  v0 + ((v1 - v0) * (t - t0)) / (t1 - t0)

/-- Embeds `Attribute.Interpolate.BSpline_Nonuniform` (JStudio.ts:1369-1394):
closed-form non-uniform cubic B-spline blend over 4 control points and a
6-entry knot vector. -/
def bsplineNonuniform (t : ℚ) (controlPoints knotVector : List ℚ) : ℚ :=
  let knot0 := knotVector.getD 0 0
  let knot1 := knotVector.getD 1 0
  let knot2 := knotVector.getD 2 0
  let knot3 := knotVector.getD 3 0
  let knot4 := knotVector.getD 4 0
  let knot5 := knotVector.getD 5 0
  let diff0 := t - knot0
  let diff1 := t - knot1
  let diff2 := t - knot2
  let diff3 := knot3 - t
  let diff4 := knot4 - t
  let diff5 := knot5 - t
  let inverseDeltaKnot32 := 1 / (knot3 - knot2)
  let blendFactor3 := (diff3 * inverseDeltaKnot32) / (knot3 - knot1)
  let blendFactor2 := (diff2 * inverseDeltaKnot32) / (knot4 - knot2)
  let blendFactor1 := (diff3 * blendFactor3) / (knot3 - knot0)
  let blendFactor4 := ((diff1 * blendFactor3) + (diff4 * blendFactor2)) / (knot4 - knot1)
  let blendFactor5 := (diff2 * blendFactor2) / (knot5 - knot2)
  let term1 := diff3 * blendFactor1
  let term2 := (diff0 * blendFactor1) + (diff4 * blendFactor4)
  let term3 := (diff1 * blendFactor4) + (diff5 * blendFactor5)
  let term4 := diff2 * blendFactor5
  term1 * controlPoints.getD 0 0 + term2 * controlPoints.getD 1 0 +
    term3 * controlPoints.getD 2 0 + term4 * controlPoints.getD 3 0

/-- A ListParameter function value after `setData`/`prepare`: the flat
key array (time/value pairs) and the selected interpolation routine. -/
structure ListParam where
  keys : List ℚ
  interpFunc : SelFn
deriving DecidableEq, Repr

/-- Builds a ListParameter curve the way `prepare_data` + an `InterpSet`
paragraph + `prepare()` do: `keyCount = keys.length / 2`. -/
def mkListParameter (interp : EInterpolateType) (keys : List ℚ) : ListParam :=
  { keys := keys, interpFunc := prepareSel interp (keys.length / 2) }

/-- The JS `keys.findIndex((k, i) => (i % 2) == 0 && k >= t)`: index of
the first even-position entry (a key time) at or after `t`. -/
def findKeyIdx (t : ℚ) : List ℚ → ℕ → Option ℕ
  | [], _ => none
  | k :: rest, i => if i % 2 = 0 ∧ t ≤ k then some i else findKeyIdx t rest (i + 1)

/-- Embeds `FunctionValue_ListParameter.interpolateLinear` (JStudio.ts:1602-1606). -/
def interpolateLinear (keys : List ℚ) (curKeyIdx : ℕ) (t : ℚ) : ℚ :=
  let c := curKeyIdx * 2
  interpLinearFormula t (keys.getD (c - 2) 0) (keys.getD (c - 1) 0)
    (keys.getD c 0) (keys.getD (c + 1) 0)

/-- Embeds `FunctionValue_ListParameter.interpolateBSpline` (JStudio.ts:1519-1595):
synthesizes the 4 control points / 6 knots around the bracketing keys,
extrapolating the missing edge entries per the keysBefore/keysAfter case
table, then evaluates the non-uniform B-spline blend. -/
def interpolateBSpline (keys : List ℚ) (keyCount curKeyIdx : ℕ) (t : ℚ) : ℚ :=
  let c := curKeyIdx * 2
  let cp1 := keys.getD (c - 1) 0
  let cp2 := keys.getD (c + 1) 0
  let kn2 := keys.getD (c - 2) 0
  let kn3 := keys.getD c 0
  let keysBefore := curKeyIdx
  let keysAfter := keyCount - curKeyIdx
  let e : ℚ × ℚ × ℚ × ℚ × ℚ × ℚ :=  -- (cp0, cp3, kn0, kn1, kn4, kn5)
    if keysBefore = 1 then
      let cp0 := 2 * cp1 - cp2
      let cp3 := keys.getD (c + 3) 0
      let kn4 := keys.getD (c + 2) 0
      let kn1 := 2 * kn2 - kn3
      let kn0 := 2 * kn2 - kn4
      let kn5 := if keysAfter = 1 ∨ keysAfter = 2 then 2 * kn4 - kn3
                 else keys.getD (c + 4) 0
      (cp0, cp3, kn0, kn1, kn4, kn5)
    else if keysBefore = 2 then
      let cp0 := keys.getD (c - 3) 0
      let kn1 := keys.getD (c - 4) 0
      let kn0 := 2 * kn1 - kn2
      if keysAfter = 1 then
        (cp0, 2 * cp2 - cp1, kn0, kn1, 2 * kn3 - kn2, 2 * kn3 - kn1)
      else if keysAfter = 2 then
        (cp0, keys.getD (c + 3) 0, kn0, kn1, keys.getD (c + 2) 0,
         2 * keys.getD (c + 2) 0 - kn3)
      else
        (cp0, keys.getD (c + 3) 0, kn0, kn1, keys.getD (c + 2) 0,
         keys.getD (c + 4) 0)
    else
      let cp0 := keys.getD (c - 3) 0
      let kn1 := keys.getD (c - 4) 0
      let kn0 := keys.getD (c - 6) 0
      if keysAfter = 1 then
        (cp0, 2 * cp2 - cp1, kn0, kn1, 2 * kn3 - kn2, 2 * kn3 - kn1)
      else if keysAfter = 2 then
        (cp0, keys.getD (c + 3) 0, kn0, kn1, keys.getD (c + 2) 0,
         2 * keys.getD (c + 2) 0 - kn3)
      else
        (cp0, keys.getD (c + 3) 0, kn0, kn1, keys.getD (c + 2) 0,
         keys.getD (c + 4) 0)
  bsplineNonuniform t [e.1, cp1, cp2, e.2.1]
    [e.2.2.1, e.2.2.2.1, kn2, kn3, e.2.2.2.2.1, e.2.2.2.2.2]

/-- Embeds `FunctionValue_ListParameter.getValue` (JStudio.ts:1496-1517).
`Range.getParameter` returns the query time unchanged (no
Progress/Adjust support).  The JS `findIndex(...) / 2` is `-0.5` when no
key time is at or after `t` (the "clamp to last key" branch), `0` when
the first key already brackets `t`, and the bracketing key index
otherwise; the post-interpolation NaN check only logs and returns the
value unchanged. -/
def ListParam.getValue (lp : ListParam) (timeSec : ℚ) : ℚ :=
  let keyCount := lp.keys.length / 2
  let t := timeSec
  match findKeyIdx t lp.keys 0 with
  | some 0 => lp.keys.getD 1 0
  | none => lp.keys.getD ((keyCount - 1) * 2 + 1) 0
  | some fi =>
    let curKeyIdx := fi / 2
    match lp.interpFunc with
    | .selLinear => interpolateLinear lp.keys curKeyIdx t
    | .selBSpline => interpolateBSpline lp.keys keyCount curKeyIdx t
    | .selNone => lp.keys.getD curKeyIdx 0
    | .selPlateau => lp.keys.getD curKeyIdx 0

end FVB

/-! ## Production foliage packets (src/WindWaker/Grass.ts)

The boundary-query system (`globals.scnPlay.bgS`) lives outside this
material; a ground query is abstracted as an oracle from the query
position to either a miss (`GroundCross` returning `-Infinity`) or a hit
carrying the ground height and the hit triangle's normal.  Because the
Tree/Bush packets store `-Infinity` itself into an instance's Y
coordinate, vertical coordinates use the extended rationals `ERat`. -/

/-- A rational extended with the `-Infinity` sentinel. -/
inductive ERat where
  | negInf
  | fin (q : ℚ)
deriving DecidableEq, Repr

/-- Computes `e + q` (JS addition with a possibly `-Infinity` left operand). -/
def ERat.addQ : ERat → ℚ → ERat
  | .negInf, _ => .negInf
  | .fin y, q => .fin (y + q)

/-- A foliage instance's world position: X/Z stay rational, Y may hold
the `-Infinity` sentinel. -/
structure Pos3 where
  x : ℚ
  y : ERat
  z : ℚ
deriving DecidableEq, Repr

/-- Result of one `GroundCross` boundary query. -/
inductive GndRes where
  | miss
  | hit (y : ℚ) (normal : V3)
deriving DecidableEq, Repr

/-- The abstracted boundary-query system: ground result per query
position (the middle component is the raised cast origin `pos.y + 50`). -/
abbrev Gnd := ℚ → ERat → ℚ → GndRes

/-- Embeds `kMaxGroundChecksPerFrame` (Grass.ts:99). -/
def kMaxGroundChecksPerFrame : ℕ := 8

/-- Embeds the module-level `checkGroundY` (Grass.ts:120-131), used by
the Flower and Grass packets: cast from `(x, y+50, z)`; on a hit return
the ground height, on a miss return the instance's previous Y. -/
def checkGroundY (gnd : Gnd) (pos : Pos3) : ERat :=
  match gnd pos.x (pos.y.addQ 50) pos.z with
  | .hit y _ => .fin y
  | .miss => pos.y

/-- Cross product (gl-matrix `vec3.cross`). -/
def vcross (a b : V3) : V3 :=
  (a.2.1 * b.2.2 - a.2.2 * b.2.1,
   a.2.2 * b.1 - a.1 * b.2.2,
   a.1 * b.2.1 - a.2.1 * b.1)

/-- gl-matrix `mat4.transpose` on a column-major 16-entry matrix:
`new[c*4+r] = old[r*4+c]`. -/
def mtxTranspose (m : List ERat) : List ERat :=
  (List.range 16).map fun i => m.getD (4 * (i % 4) + i / 4) (.fin 0)

/-- The shadow-frame construction shared by `TreePacket.checkGroundY`
(Grass.ts:673-711) and `BushPacket.checkGroundY` (Grass.ts:1349-1399):
from the (possibly `-Infinity`) ground height `y`, the surface `normal`,
and the instance position, rebuild the shadow matrix basis rows —
`right = +X`, `forward = normal × right`, `right = normal × forward` —
with the translation entries `(pos.x, 1 + y, pos.z)`, then transpose. -/
def buildShadowMtx (m : List ERat) (posX posZ : ℚ) (y : ERat) (normal : V3) :
    List ERat :=
  let right0 : V3 := (1, 0, 0)
  let forward := vcross normal right0
  let right := vcross normal forward
  let m := m.set 0 (.fin right.1)
  let m := m.set 1 (.fin right.2.1)
  let m := m.set 2 (.fin right.2.2)
  let m := m.set 3 (.fin posX)
  let m := m.set 4 (.fin normal.1)
  let m := m.set 5 (.fin normal.2.1)
  let m := m.set 6 (.fin normal.2.2)
  let m := m.set 7 (y.addQ 1)
  let m := m.set 8 (.fin forward.1)
  let m := m.set 9 (.fin forward.2.1)
  let m := m.set 10 (.fin forward.2.2)
  let m := m.set 11 (.fin posZ)
  mtxTranspose m

/-! ### Flower packet (Grass.ts:141-493) -/

/-- Embeds `FlowerType` (Grass.ts:141-145). -/
inductive FlowerType where
  | WHITE
  | PINK
  | BESSOU
deriving DecidableEq, Repr

namespace FlowerFlags
/-- Source value `1 << 0`. -/
def isFrustumCulled : ℕ := 1
/-- Source value `2 << 0`. -/
def needsGroundCheck : ℕ := 2
end FlowerFlags

/-- Embeds `FlowerData` (Grass.ts:152-160).  The derived `modelMatrix` (a pure
render matrix recomposed every frame from the shared animation pool) is
not part of the simulation state verified here. -/
structure FlowerData where
  flags : ℕ
  type : FlowerType
  animIdx : ℕ
  itemIdx : ℕ
  particleLifetime : ℕ
  pos : Pos3
deriving DecidableEq, Repr

/-- Embeds `FlowerPacket.newData` (Grass.ts:325-347).  `animIdx` abstracts the
`Math.floor(Math.random() * 8)` sample. -/
def FlowerPacket.newData (stageName : String) (pos : Pos3) (isPink : Bool)
    (roomIdx : ℕ) (itemIdx animIdx : ℕ) : FlowerData :=
  let type := if isPink then FlowerType.PINK else FlowerType.WHITE
  let type := if stageName = "sea" ∧ roomIdx = 0x21 ∧ isPink then FlowerType.BESSOU else type
  { flags := FlowerFlags.needsGroundCheck, type := type, animIdx := animIdx,
    itemIdx := itemIdx, particleLifetime := 0, pos := pos }

/-- The ground-check servicing of one flower instance inside
`FlowerPacket.update` (Grass.ts:375-379): `pos[1] = checkGroundY(...)`,
then `flags &= ~needsGroundCheck`. -/
def flowerService (gnd : Gnd) (d : FlowerData) : FlowerData :=
  { d with pos := { d.pos with y := checkGroundY gnd d.pos },
           flags := jsAndNot d.flags FlowerFlags.needsGroundCheck }

/-- The per-instance loop of `FlowerPacket.update` over one room bucket
(Grass.ts:371-387), threading `groundChecksThisFrame`: a flagged
instance is serviced only while the budget is not exhausted; there is no
early loop exit.  (The model-matrix recomputation on non-culled
instances touches only derived render state.) -/
def flowerUpdateInsts (gnd : Gnd) : List FlowerData → ℕ → List FlowerData × ℕ
  | [], c => ([], c)
  | d :: rest, c =>
    if d.flags &&& FlowerFlags.needsGroundCheck ≠ 0 ∧ c < kMaxGroundChecksPerFrame then
      let p := flowerUpdateInsts gnd rest (c + 1)
      (flowerService gnd d :: p.1, p.2)
    else
      let p := flowerUpdateInsts gnd rest c
      (d :: p.1, p.2)

/-- The room loop of `FlowerPacket.update` (Grass.ts:369-388): rooms 0-63
in index order, one shared budget counter, no prioritization of the
currently occupied room. -/
def flowerUpdateRooms (gnd : Gnd) : List (List FlowerData) → ℕ →
    List (List FlowerData) × ℕ
  | [], c => ([], c)
  | r :: rs, c =>
    let p := flowerUpdateInsts gnd r c
    let q := flowerUpdateRooms gnd rs p.2
    (p.1 :: q.1, q.2)

/-- Embeds `FlowerPacket.update` (Grass.ts:359-389), restricted to its
ground-check/budget state: `groundChecksThisFrame` starts at 0.  The
returned number is the final counter, i.e. the number of ground-height
queries issued.  The update never reads `mStayNo`. -/
def FlowerPacket.update (gnd : Gnd) (rooms : List (List FlowerData)) :
    List (List FlowerData) × ℕ :=
  flowerUpdateRooms gnd rooms 0

/-! ### Tree packet (Grass.ts:499-897) -/

namespace TreeFlags
/-- Source value `1 << 0`. -/
def isFrustumCulled : ℕ := 1
/-- Source value `1 << 1`. -/
def needsGroundCheck : ℕ := 2
/-- Source value `1 << 3`. -/
def unk8 : ℕ := 8
end TreeFlags

/-- Embeds `TreeData` (Grass.ts:509-521), restricted to simulation state: the
derived `unkMatrix`/`topModelMtx`/`trunkModelMtx` render matrices are
recomposed from the shared animation pool and are not modelled; the
`shadowModelMtx` is kept because `checkGroundY` writes the ground-check
result into it. -/
structure TreeData where
  flags : ℕ
  status : ℕ
  animIdx : ℕ
  trunkAlpha : ℕ
  pos : Pos3
  shadowModelMtx : List ERat
deriving DecidableEq, Repr

/-- Embeds `TreePacket.checkGroundY` (Grass.ts:673-711): the ground
height — `-Infinity` included on a miss — is written into `pos[1]`, the
shadow frame is rebuilt from the hit normal (or `(0,1,0)` on a miss). -/
def TreePacket.checkGroundY (gnd : Gnd) (d : TreeData) : TreeData :=
  let res := gnd d.pos.x (d.pos.y.addQ 50) d.pos.z
  let y : ERat := match res with
    | .hit y _ => .fin y
    | .miss => .negInf
  let normal : V3 := match res with
    | .hit _ n => n
    | .miss => (0, 1, 0)
  let pos := { d.pos with y := y }
  { d with pos := pos,
           shadowModelMtx := buildShadowMtx d.shadowModelMtx pos.x pos.z y normal }

/-- Embeds `TreePacket.newData` (Grass.ts:713-733). -/
def TreePacket.newData (pos : Pos3) (initialStatus : ℕ) (animIdx : ℕ) : TreeData :=
  { flags := TreeFlags.needsGroundCheck, status := initialStatus, animIdx := animIdx,
    trunkAlpha := 0xFF, pos := pos, shadowModelMtx := List.replicate 16 (.fin 0) }

/-- The servicing step inside `TreePacket.updateRoom` (Grass.ts:757-761). -/
def treeService (gnd : Gnd) (d : TreeData) : TreeData :=
  let d1 := TreePacket.checkGroundY gnd d
  { d1 with flags := jsAndNot d1.flags TreeFlags.needsGroundCheck }

/-- The per-instance loop of `TreePacket.updateRoom` (Grass.ts:748-783):
`break` as soon as the budget is exhausted, service every flagged
instance reached before that. -/
def treeUpdateRoomInsts (gnd : Gnd) : List TreeData → ℕ → List TreeData × ℕ
  | [], c => ([], c)
  | d :: rest, c =>
    if c ≥ kMaxGroundChecksPerFrame then (d :: rest, c)
    else if d.flags &&& TreeFlags.needsGroundCheck ≠ 0 then
      let p := treeUpdateRoomInsts gnd rest (c + 1)
      (treeService gnd d :: p.1, p.2)
    else
      let p := treeUpdateRoomInsts gnd rest c
      (d :: p.1, p.2)

/-! ### Grass packet (Grass.ts:902-1178) -/

namespace GrassFlags
/-- Source value `1 << 0`. -/
def isFrustumCulled : ℕ := 1
/-- Source value `1 << 1`. -/
def needsGroundCheck : ℕ := 2
end GrassFlags

/-- Embeds `GrassData` (Grass.ts:907-913), restricted to simulation state
(`modelMtx` is derived render state). -/
structure GrassData where
  flags : ℕ
  animIdx : ℕ
  itemIdx : ℕ
  pos : Pos3
deriving DecidableEq, Repr

/-- Embeds `GrassPacket.newData` (Grass.ts:1044-1058). -/
def GrassPacket.newData (pos : Pos3) (itemIdx animIdx : ℕ) : GrassData :=
  { flags := GrassFlags.needsGroundCheck, animIdx := animIdx, itemIdx := itemIdx,
    pos := pos }

/-- The servicing step inside `GrassPacket.updateRoom` (Grass.ts:1085-1088):
grass uses the simple module-level `checkGroundY`. -/
def grassService (gnd : Gnd) (d : GrassData) : GrassData :=
  { d with pos := { d.pos with y := checkGroundY gnd d.pos },
           flags := jsAndNot d.flags GrassFlags.needsGroundCheck }

/-- The per-instance loop of `GrassPacket.updateRoom` (Grass.ts:1076-1105). -/
def grassUpdateRoomInsts (gnd : Gnd) : List GrassData → ℕ → List GrassData × ℕ
  | [], c => ([], c)
  | d :: rest, c =>
    if c ≥ kMaxGroundChecksPerFrame then (d :: rest, c)
    else if d.flags &&& GrassFlags.needsGroundCheck ≠ 0 then
      let p := grassUpdateRoomInsts gnd rest (c + 1)
      (grassService gnd d :: p.1, p.2)
    else
      let p := grassUpdateRoomInsts gnd rest c
      (d :: p.1, p.2)

/-! ### Bush packet (Grass.ts:1184-1566) -/

/-- Embeds `BushData` (Grass.ts:1193-1206), restricted to simulation state.
The Bush packet reuses the Tree flag values (`TreeFlags`). -/
structure BushData where
  roomIdx : ℕ
  flags : ℕ
  status : ℕ
  animIdx : ℕ
  trunkAlpha : ℕ
  pos : Pos3
  shadowModelMtx : List ERat
deriving DecidableEq, Repr

/-- Embeds `BushPacket.checkGroundY` (Grass.ts:1349-1399), identical in
structure to the tree version. -/
def BushPacket.checkGroundY (gnd : Gnd) (d : BushData) : BushData :=
  let res := gnd d.pos.x (d.pos.y.addQ 50) d.pos.z
  let y : ERat := match res with
    | .hit y _ => .fin y
    | .miss => .negInf
  let normal : V3 := match res with
    | .hit _ n => n
    | .miss => (0, 1, 0)
  let pos := { d.pos with y := y }
  { d with pos := pos,
           shadowModelMtx := buildShadowMtx d.shadowModelMtx pos.x pos.z y normal }

/-- Embeds `BushPacket.newData` (Grass.ts:1401-1422). -/
def BushPacket.newData (pos : Pos3) (roomIdx animIdx : ℕ) : BushData :=
  { roomIdx := roomIdx, flags := TreeFlags.needsGroundCheck, status := 0,
    animIdx := animIdx, trunkAlpha := 0xFF, pos := pos,
    shadowModelMtx := List.replicate 16 (.fin 0) }

/-- The servicing step inside `BushPacket.updateRoom` (Grass.ts:1446-1450). -/
def bushService (gnd : Gnd) (d : BushData) : BushData :=
  let d1 := BushPacket.checkGroundY gnd d
  { d1 with flags := jsAndNot d1.flags TreeFlags.needsGroundCheck }

/-- The per-instance loop of `BushPacket.updateRoom` (Grass.ts:1437-1462):
like the tree version, with a redundant second budget test in the
service condition. -/
def bushUpdateRoomInsts (gnd : Gnd) : List BushData → ℕ → List BushData × ℕ
  | [], c => ([], c)
  | d :: rest, c =>
    if c ≥ kMaxGroundChecksPerFrame then (d :: rest, c)
    else if d.flags &&& TreeFlags.needsGroundCheck ≠ 0 ∧ c < kMaxGroundChecksPerFrame then
      let p := bushUpdateRoomInsts gnd rest (c + 1)
      (bushService gnd d :: p.1, p.2)
    else
      let p := bushUpdateRoomInsts gnd rest c
      (d :: p.1, p.2)

/-! ### The shared prioritized room loop

`TreePacket.update` (Grass.ts:785-811), `GrassPacket.update`
(Grass.ts:1107-1129) and `BushPacket.update` (Grass.ts:1464-1487) are
verbatim copies of one another: run `updateRoom` on `mStayNo` first,
then on every other room in index order, stopping once the budget
counter exceeds the cap. -/

/-- Embeds `updateRoom` dispatch on `this.rooms[roomIdx]` (in-place mutation of
one room bucket).  A JS out-of-range index would fault; the production
callers only pass indices below 64 (= `rooms.length`). -/
def updateRoomAt {α : Type} (pass : List α → ℕ → List α × ℕ)
    (rooms : List (List α)) (i c : ℕ) : List (List α) × ℕ :=
  match rooms.get? i with
  | some room =>
    let p := pass room c
    (rooms.set i p.1, p.2)
  | none => (rooms, c)

/-- The `for (roomIdx …) { if (c > kMax) break; if (roomIdx === mStayNo)
continue; c = updateRoom(roomIdx, c); }` loop. -/
def prioGo {α : Type} (pass : List α → ℕ → List α × ℕ) (mStay : ℕ) :
    List ℕ → List (List α) → ℕ → List (List α) × ℕ
  | [], rooms, c => (rooms, c)
  | i :: is, rooms, c =>
    if c > kMaxGroundChecksPerFrame then (rooms, c)
    else if i = mStay then prioGo pass mStay is rooms c
    else
      let p := updateRoomAt pass rooms i c
      prioGo pass mStay is p.1 p.2

/-- The full prioritized update: current room first, then the index
loop over all rooms. -/
def prioUpdate {α : Type} (pass : List α → ℕ → List α × ℕ) (mStay : ℕ)
    (rooms : List (List α)) : List (List α) × ℕ :=
  let p := updateRoomAt pass rooms mStay 0
  prioGo pass mStay (List.range p.1.length) p.1 p.2

/-- Embeds `TreePacket.update` (Grass.ts:785-811), ground-check/budget state. -/
def TreePacket.update (gnd : Gnd) (mStay : ℕ) (rooms : List (List TreeData)) :
    List (List TreeData) × ℕ :=
  prioUpdate (treeUpdateRoomInsts gnd) mStay rooms

/-- Embeds `GrassPacket.update` (Grass.ts:1107-1129), ground-check/budget state. -/
def GrassPacket.update (gnd : Gnd) (mStay : ℕ) (rooms : List (List GrassData)) :
    List (List GrassData) × ℕ :=
  prioUpdate (grassUpdateRoomInsts gnd) mStay rooms

/-- Embeds `BushPacket.update` (Grass.ts:1464-1487), ground-check/budget state. -/
def BushPacket.update (gnd : Gnd) (mStay : ℕ) (rooms : List (List BushData)) :
    List (List BushData) × ℕ :=
  prioUpdate (bushUpdateRoomInsts gnd) mStay rooms

/-! ## Legacy flower packet (src/j3d/WindWaker/Grass.ts:259-306) -/

/-- Embeds `kMaxFlowerDatas` (j3d Grass.ts:86). -/
def kMaxFlowerDatas : ℕ := 200

/-- The legacy `FlowerData` (j3d Grass.ts:68-77).  Its `nextData` field
is always assigned `null!` and never read, so it carries no state. -/
structure LegacyFlowerData where
  flags : ℕ
  type : FlowerType
  animIdx : ℕ
  itemIdx : ℕ
  particleLifetime : ℕ
  pos : Pos3
deriving DecidableEq, Repr

/-- Embeds the legacy `FlowerPacket.setData` (j3d Grass.ts:288-306).
The slot array is the JS `datas` array of length `kMaxFlowerDatas`; an
empty slot is `none`.  `index` is a JS number: assigning
`this.datas[-1] = …` creates an out-of-band object property, leaving
every array slot `0 … length-1` (and the array contents seen by all
fixed-bound loops) unchanged, which the negative branch models. -/
def LegacyFlowerPacket.setData (stage : String)
    (datas : List (Option LegacyFlowerData)) (index : ℤ) (pos : Pos3)
    (type : FlowerType) (roomIdx itemIdx animIdx : ℕ) :
    List (Option LegacyFlowerData) × LegacyFlowerData :=
  let type := if stage = "sea" ∧ roomIdx = 0x21 then FlowerType.BESSOU else type
  let rec0 : LegacyFlowerData :=
    { flags := FlowerFlags.needsGroundCheck, type := type, animIdx := animIdx,
      itemIdx := itemIdx, particleLifetime := 0, pos := pos }
  if 0 ≤ index then (datas.set index.toNat (some rec0), rec0)
  else (datas, rec0)

/-- Embeds the legacy `FlowerPacket.newData` (j3d Grass.ts:282-286):
linear first-empty-slot allocation via `findIndex`, with `-1` (plus a
logged warning, returned here as the Bool) when the array is full; the
allocation result is passed to `setData` unconditionally. -/
def LegacyFlowerPacket.newData (stage : String)
    (datas : List (Option LegacyFlowerData)) (pos : Pos3) (type : FlowerType)
    (roomIdx itemIdx animIdx : ℕ) :
    List (Option LegacyFlowerData) × LegacyFlowerData × Bool :=
  let dataIdx : ℤ := match datas.findIdx? (fun d => d.isNone) with
    | some i => (i : ℤ)
    | none => -1
  let warned : Bool := (dataIdx == -1)
  let p := LegacyFlowerPacket.setData stage datas dataIdx pos type roomIdx itemIdx animIdx
  (p.1, p.2, warned)

/-! ## STB sequence programs (src/Common/JSYSTEM/JStudio.ts:307-526) -/

/-- Embeds `EStatus` (JStudio.ts:1815-1821).  The source gives the members the
bit values 0, 1, 2, 4, 8 for the controller's status aggregation, which
is outside this embedding. -/
inductive EStatus where
  | Still
  | End
  | Wait
  | Suspend
  | Inactive
deriving DecidableEq, Repr

/-- Observable adaptor callbacks and paragraph dispatches of one
`forward` call. -/
inductive StbEv where
  /-- Embeds `do_begin` (adaptor begin hook). -/
  | Begin
  /-- Embeds `do_wait frameCount` (variable-value update + adaptor update hook). -/
  | Wait (frameCount : ℕ)
  /-- Embeds `do_end` (adaptor end hook). -/
  | End
  /-- Embeds `do_data` from the reserved paragraph 0x81. -/
  | Data (id : ℕ)
  /-- Embeds `do_paragraph` dispatch for a property-update paragraph. -/
  | Para (type dataSize dataOffset : ℕ)
deriving DecidableEq, Repr

/-- The mutable fields of `STBObject` that `forward`/`process_sequence`
touch. -/
structure StbState where
  mFlags : ℕ
  mStatus : EStatus
  mIsSequence : Bool
  mSuspendFrames : ℕ
  mWait : ℕ
  pSequence : ℕ
  pSequence_next : ℕ
deriving DecidableEq, Repr

/-- The `STBObject` constructor state (JStudio.ts:322-335): program
counter at `0xC + align(id.length + 1, 4)` past the block header. -/
def STBObject.initialState (idLength flag : ℕ) : StbState :=
  { mFlags := flag, mStatus := .Still, mIsSequence := false, mSuspendFrames := 0,
    mWait := 0, pSequence := 0, pSequence_next := 0xC + align (idLength + 1) 4 }

theorem TParagraph.parse_nextOffset_ge (view : List ℕ) (i : ℕ) :
    i + 4 ≤ (TParagraph.parse view i).nextOffset := by
  unfold TParagraph.parse
  by_cases h : getUint16 view i &&& 0x8000 = 0 <;> simp only [h, if_true, if_false] <;>
    split <;> simp <;> omega

/-- The paragraph walk of the `Paragraph` sequence command
(JStudio.ts:484-493), as the list of dispatches it performs: reserved
types (≤ 0xFF) go through `process_paragraph_reserved_`
(JStudio.ts:505-525) — only 0x81 has an effect, forwarding the embedded
u32 id to `do_data`; larger types dispatch to `do_paragraph`. -/
def paragraphEvents (data : List ℕ) (byteIdx next : ℕ) : List StbEv :=
  if h : byteIdx < next then
    let para := TParagraph.parse data byteIdx
    (if para.type ≤ 0xFF then
      (if para.type = 0x81 then [StbEv.Data (getUint32 data (para.dataOffset + 4))]
       else [])
     else [StbEv.Para para.type para.dataSize para.dataOffset])
    ++ paragraphEvents data para.nextOffset next
  else []
termination_by next - byteIdx
decreasing_by
  have := TParagraph.parse_nextOffset_ge data byteIdx
  omega

/-- Embeds `STBObject.process_sequence` (JStudio.ts:440-503): decode the
4-byte big-endian command at `pSequence`, set `pSequence_next` (0 for
`End`, `+4` for short commands, `+4+param` for `Paragraph`), and apply
the command's state effect.  `SetFlag` (1) and `Skip` (3) are
unimplemented diagnostic stops, unknown commands only log. -/
def process_sequence (data : List ℕ) (st : StbState) : StbState × List StbEv :=
  let byteIdx := st.pSequence
  let cmd := getUint8 data byteIdx
  let param := getUint32 data byteIdx &&& 0xFFFFFF
  let next := if cmd ≠ 0 then (if cmd ≤ 0x7F then byteIdx + 4 else byteIdx + 4 + param)
              else 0
  let st := { st with pSequence_next := next }
  if cmd = 0 then (st, [])
  else if cmd = 1 then (st, [])
  else if cmd = 2 then ({ st with mWait := param }, [])
  else if cmd = 3 then (st, [])
  else if cmd = 4 then ({ st with mSuspendFrames := st.mSuspendFrames + param }, [])
  else if cmd = 0x80 then (st, paragraphEvents data (byteIdx + 4) next)
  else (st, [])

/-- Result of the inner command loop of `forward`: `ret b` models
`return b`, `brk` models the `break` back to the outer loop. -/
inductive InnerRes where
  | ret (b : Bool)
  | brk
deriving DecidableEq, Repr

/-- The inner `while (true)` of `STBObject.forward` (JStudio.ts:391-436),
threading the remaining `frameCount`, the function-scoped `hasWaited`,
the event list, and the trace of every `mStatus` assignment.  Runs out
of fuel only on longer command chains than the given fuel. -/
def stbInner (data : List ℕ) :
    ℕ → StbState → ℕ → Bool → List StbEv → List EStatus →
    Option (InnerRes × StbState × ℕ × List StbEv × List EStatus × Bool)
  | 0, _, _, _, _, _ => none
  | fuel + 1, st, fc, hw, evs, sts =>
    let st1 := { st with pSequence := st.pSequence_next }
    if st1.pSequence = 0 then
      -- nothing left in the sequence: end it
      if st1.mIsSequence then
        let evs := evs ++ (if hw then [] else [StbEv.Wait 0])
        some (.ret false,
          { st1 with mIsSequence := false, mStatus := .End },
          fc, evs ++ [StbEv.End], sts ++ [.End], hw)
      else
        some (.ret false, st1, fc, evs, sts, hw)
    else
      -- not currently running a sequence: start it
      let s2 : StbState × List StbEv :=
        if st1.mIsSequence then (st1, evs)
        else ({ st1 with mIsSequence := true }, evs ++ [StbEv.Begin])
      let st2 := s2.1
      let st3 := { st2 with mStatus := EStatus.Wait }
      let sts3 := sts ++ [EStatus.Wait]
      let s4 : StbState × List StbEv × Bool :=
        if st3.mWait = 0 then
          let p := process_sequence data st3
          (p.1, s2.2 ++ p.2, p.1.mWait = 0)
        else (st3, s2.2, false)
      let st4 := s4.1
      let evs4 := s4.2.1
      if s4.2.2 then
        some (.brk, st4, fc, evs4, sts3, hw)
      else if st4.mWait ≤ fc then
        let w := st4.mWait
        stbInner data fuel { st4 with mWait := 0 } (fc - w) true
          (evs4 ++ [StbEv.Wait w]) sts3
      else
        some (.ret true, { st4 with mWait := st4.mWait - fc }, fc,
          evs4 ++ [StbEv.Wait fc], sts3, true)

/-- Embeds `STBObject.forward` (JStudio.ts:362-438).  `ctrlSusp` is
`mControl.isSuspended()`; the outer `while (true)` recurses on `fuel`
whenever the inner loop `break`s.  Returns the `forward` result, the
final state, the adaptor events, and the trace of status assignments. -/
def STBObject.forward (ctrlSusp : Bool) (data : List ℕ) :
    ℕ → StbState → ℕ → Bool → List StbEv → List EStatus →
    Option (Bool × StbState × List StbEv × List EStatus)
  | 0, _, _, _, _, _ => none
  | fuel + 1, st, fc, hw, evs, sts =>
    if st.mFlags &&& 0x8000 ≠ 0 then
      -- forced inactive, ending any running sequence
      if st.mStatus ≠ EStatus.Inactive then
        some (true, { st with mStatus := .Inactive },
          evs ++ (if st.mIsSequence then [StbEv.End] else []), sts ++ [.Inactive])
      else some (true, st, evs, sts)
    else
      let s1 : StbState × List StbEv × List EStatus :=
        if st.mStatus = EStatus.Inactive then
          ({ st with mStatus := .Wait }, evs ++ [StbEv.Begin], sts ++ [.Wait])
        else (st, evs, sts)
      let st1 := s1.1
      if ctrlSusp ∨ st1.mSuspendFrames > 0 then
        if st1.mIsSequence then
          some (true, { st1 with mStatus := .Suspend },
            s1.2.1 ++ [StbEv.Wait fc], s1.2.2 ++ [.Suspend])
        else some (true, st1, s1.2.1, s1.2.2)
      else
        match stbInner data (fuel + 1) st1 fc hw s1.2.1 s1.2.2 with
        | none => none
        | some (.ret b, st2, _, evs2, sts2, _) => some (b, st2, evs2, sts2)
        | some (.brk, st2, fc2, evs2, sts2, hw2) =>
          STBObject.forward ctrlSusp data fuel st2 fc2 hw2 evs2 sts2

/-! ## Budget-pass infrastructure

All four per-instance loops have the same observable budget behaviour:
service (with the packet's service function) every flagged instance
reached while the counter is below the cap, keep everything else.
`servePass` is that common shape; each packet's loop is proved equal to
it, and the budget lemmas are proved once against `servePass`. -/

def servePass {α : Type} (svc : α → α) (isF : α → Bool) :
    List α → ℕ → List α × ℕ
  | [], c => ([], c)
  | d :: rest, c =>
    if isF d = true ∧ c < kMaxGroundChecksPerFrame then
      let p := servePass svc isF rest (c + 1)
      (svc d :: p.1, p.2)
    else
      let p := servePass svc isF rest c
      (d :: p.1, p.2)

theorem servePass_ge8 {α : Type} (svc : α → α) (isF : α → Bool) :
    ∀ (l : List α) (c : ℕ), kMaxGroundChecksPerFrame ≤ c →
      servePass svc isF l c = (l, c) := by
  intro l
  induction l with
  | nil => intro c _; rfl
  | cons d rest ih =>
    intro c hc
    have hnot : ¬ (isF d = true ∧ c < kMaxGroundChecksPerFrame) := by
      rintro ⟨-, hlt⟩; omega
    simp [servePass, hnot, ih c hc]

theorem servePass_count_le {α : Type} (svc : α → α) (isF : α → Bool) :
    ∀ (l : List α) (c : ℕ), c ≤ kMaxGroundChecksPerFrame →
      (servePass svc isF l c).2 ≤ kMaxGroundChecksPerFrame := by
  intro l
  induction l with
  | nil => intro c hc; exact hc
  | cons d rest ih =>
    intro c hc
    by_cases h : isF d = true ∧ c < kMaxGroundChecksPerFrame
    · simpa [servePass, h] using ih (c + 1) (by omega)
    · simpa [servePass, h] using ih c hc

theorem servePass_count_ge {α : Type} (svc : α → α) (isF : α → Bool) :
    ∀ (l : List α) (c : ℕ), c ≤ (servePass svc isF l c).2 := by
  intro l
  induction l with
  | nil => intro c; exact le_refl c
  | cons d rest ih =>
    intro c
    by_cases h : isF d = true ∧ c < kMaxGroundChecksPerFrame
    · have := ih (c + 1); simp [servePass, h]; omega
    · have := ih c; simpa [servePass, h] using this

theorem servePass_countP {α : Type} (svc : α → α) (isF : α → Bool)
    (hsvc : ∀ d, isF (svc d) = false) :
    ∀ (l : List α) (c : ℕ),
      (servePass svc isF l c).1.countP isF + (servePass svc isF l c).2 =
        l.countP isF + c := by
  intro l
  induction l with
  | nil => intro c; simp [servePass]
  | cons d rest ih =>
    intro c
    by_cases h : isF d = true ∧ c < kMaxGroundChecksPerFrame
    · have := ih (c + 1)
      simp [servePass, h, List.countP_cons, hsvc d, h.1] at this ⊢
      omega
    · have := ih c
      simp [servePass, List.countP_cons, h] at this ⊢
      omega

theorem servePass_mono {α : Type} (svc : α → α) (isF : α → Bool)
    (hsvc : ∀ d, isF (svc d) = false) :
    ∀ (l : List α) (c : ℕ),
      List.Forall₂ (fun a b => isF b = true → isF a = true) l
        (servePass svc isF l c).1 := by
  intro l
  induction l with
  | nil => intro c; simp [servePass]
  | cons d rest ih =>
    intro c
    by_cases h : isF d = true ∧ c < kMaxGroundChecksPerFrame
    · simp only [servePass, h, if_true]
      exact List.Forall₂.cons (by simp [hsvc d]) (ih (c + 1))
    · simp only [servePass, h, if_false]
      exact List.Forall₂.cons (fun hb => hb) (ih c)

theorem servePass_flag_rem {α : Type} (svc : α → α) (isF : α → Bool)
    (hsvc : ∀ d, isF (svc d) = false) :
    ∀ (l : List α) (c : ℕ), c ≤ kMaxGroundChecksPerFrame →
      (∃ b ∈ (servePass svc isF l c).1, isF b = true) →
      (servePass svc isF l c).2 = kMaxGroundChecksPerFrame := by
  intro l
  induction l with
  | nil => intro c _ hex; simp [servePass] at hex
  | cons d rest ih =>
    intro c hc hex
    by_cases h : isF d = true ∧ c < kMaxGroundChecksPerFrame
    · simp only [servePass, h, if_true] at hex ⊢
      rcases hex with ⟨b, hb, hfb⟩
      rcases List.mem_cons.mp hb with rfl | hbrest
      · rw [hsvc d] at hfb; cases hfb
      · exact ih (c + 1) (by omega) ⟨b, hbrest, hfb⟩
    · simp only [servePass, h, if_false] at hex ⊢
      rcases hex with ⟨b, hb, hfb⟩
      rcases List.mem_cons.mp hb with rfl | hbrest
      · -- the head is still flagged, so the budget must already be exhausted
        have : ¬ c < kMaxGroundChecksPerFrame := fun hlt => h ⟨hfb, hlt⟩
        have hc8 : c = kMaxGroundChecksPerFrame := by omega
        subst hc8
        rw [servePass_ge8 svc isF rest _ (le_refl _)]
      · exact ih c hc ⟨b, hbrest, hfb⟩

/-! ### Per-packet instantiation of the budget pass -/

/-- Embeds `needsGroundCheck` test on a flower instance (`data.flags &
FlowerFlags.needsGroundCheck`). -/
def flowerNeeds (d : FlowerData) : Bool := d.flags &&& FlowerFlags.needsGroundCheck != 0

def treeNeeds (d : TreeData) : Bool := d.flags &&& TreeFlags.needsGroundCheck != 0

def grassNeeds (d : GrassData) : Bool := d.flags &&& GrassFlags.needsGroundCheck != 0

def bushNeeds (d : BushData) : Bool := d.flags &&& TreeFlags.needsGroundCheck != 0

theorem jsAndNot_mask2 (f : ℕ) : jsAndNot f 2 &&& 2 = 0 := by
  have h : jsAndNot f 2 &&& 2 = f &&& ((0xFFFFFFFF ^^^ 2) &&& 2) := by
    simp [jsAndNot, Nat.and_assoc]
  rw [h, show (0xFFFFFFFF ^^^ 2) &&& 2 = 0 by decide]
  simp

theorem flowerService_clears (gnd : Gnd) (d : FlowerData) :
    flowerNeeds (flowerService gnd d) = false := by
  simp [flowerNeeds, flowerService, FlowerFlags.needsGroundCheck, jsAndNot_mask2]

theorem treeService_clears (gnd : Gnd) (d : TreeData) :
    treeNeeds (treeService gnd d) = false := by
  simp [treeNeeds, treeService, TreeFlags.needsGroundCheck, jsAndNot_mask2]

theorem grassService_clears (gnd : Gnd) (d : GrassData) :
    grassNeeds (grassService gnd d) = false := by
  simp [grassNeeds, grassService, GrassFlags.needsGroundCheck, jsAndNot_mask2]

theorem bushService_clears (gnd : Gnd) (d : BushData) :
    bushNeeds (bushService gnd d) = false := by
  simp [bushNeeds, bushService, TreeFlags.needsGroundCheck, jsAndNot_mask2]

theorem flowerUpdateInsts_eq (gnd : Gnd) :
    ∀ (l : List FlowerData) (c : ℕ),
      flowerUpdateInsts gnd l c = servePass (flowerService gnd) flowerNeeds l c := by
  intro l
  induction l with
  | nil => intro c; rfl
  | cons d rest ih =>
    intro c
    by_cases h : d.flags &&& FlowerFlags.needsGroundCheck ≠ 0 ∧ c < kMaxGroundChecksPerFrame
    · simp [flowerUpdateInsts, servePass, flowerNeeds, h, h.1, ih]
    · have h2 : ¬ (flowerNeeds d = true ∧ c < kMaxGroundChecksPerFrame) := by
        simpa [flowerNeeds] using h
      simp [flowerUpdateInsts, servePass, h, h2, ih]

theorem treeUpdateRoomInsts_eq (gnd : Gnd) :
    ∀ (l : List TreeData) (c : ℕ),
      treeUpdateRoomInsts gnd l c = servePass (treeService gnd) treeNeeds l c := by
  intro l
  induction l with
  | nil => intro c; rfl
  | cons d rest ih =>
    intro c
    by_cases hc : c ≥ kMaxGroundChecksPerFrame
    · have h2 : ¬ (treeNeeds d = true ∧ c < kMaxGroundChecksPerFrame) := by
        rintro ⟨-, hlt⟩; omega
      simp [treeUpdateRoomInsts, servePass, hc, h2,
        servePass_ge8 (treeService gnd) treeNeeds rest c hc]
    · by_cases h : d.flags &&& TreeFlags.needsGroundCheck ≠ 0
      · have h2 : treeNeeds d = true ∧ c < kMaxGroundChecksPerFrame := by
          constructor
          · simpa [treeNeeds] using h
          · omega
        simp [treeUpdateRoomInsts, servePass, hc, h, h2, ih]
      · have h2 : ¬ (treeNeeds d = true ∧ c < kMaxGroundChecksPerFrame) := by
          rintro ⟨hf, -⟩
          exact h (by simpa [treeNeeds] using hf)
        simp [treeUpdateRoomInsts, servePass, hc, h, h2, ih]

theorem grassUpdateRoomInsts_eq (gnd : Gnd) :
    ∀ (l : List GrassData) (c : ℕ),
      grassUpdateRoomInsts gnd l c = servePass (grassService gnd) grassNeeds l c := by
  intro l
  induction l with
  | nil => intro c; rfl
  | cons d rest ih =>
    intro c
    by_cases hc : c ≥ kMaxGroundChecksPerFrame
    · have h2 : ¬ (grassNeeds d = true ∧ c < kMaxGroundChecksPerFrame) := by
        rintro ⟨-, hlt⟩; omega
      simp [grassUpdateRoomInsts, servePass, hc, h2,
        servePass_ge8 (grassService gnd) grassNeeds rest c hc]
    · by_cases h : d.flags &&& GrassFlags.needsGroundCheck ≠ 0
      · have h2 : grassNeeds d = true ∧ c < kMaxGroundChecksPerFrame := by
          constructor
          · simpa [grassNeeds] using h
          · omega
        simp [grassUpdateRoomInsts, servePass, hc, h, h2, ih]
      · have h2 : ¬ (grassNeeds d = true ∧ c < kMaxGroundChecksPerFrame) := by
          rintro ⟨hf, -⟩
          exact h (by simpa [grassNeeds] using hf)
        simp [grassUpdateRoomInsts, servePass, hc, h, h2, ih]

theorem bushUpdateRoomInsts_eq (gnd : Gnd) :
    ∀ (l : List BushData) (c : ℕ),
      bushUpdateRoomInsts gnd l c = servePass (bushService gnd) bushNeeds l c := by
  intro l
  induction l with
  | nil => intro c; rfl
  | cons d rest ih =>
    intro c
    by_cases hc : c ≥ kMaxGroundChecksPerFrame
    · have h2 : ¬ (bushNeeds d = true ∧ c < kMaxGroundChecksPerFrame) := by
        rintro ⟨-, hlt⟩; omega
      simp [bushUpdateRoomInsts, servePass, hc, h2,
        servePass_ge8 (bushService gnd) bushNeeds rest c hc]
    · by_cases h : d.flags &&& TreeFlags.needsGroundCheck ≠ 0 ∧ c < kMaxGroundChecksPerFrame
      · have h2 : bushNeeds d = true ∧ c < kMaxGroundChecksPerFrame := by
          refine ⟨?_, h.2⟩
          simpa [bushNeeds] using h.1
        simp [bushUpdateRoomInsts, servePass, hc, h, h2, ih]
      · have h2 : ¬ (bushNeeds d = true ∧ c < kMaxGroundChecksPerFrame) := by
          rintro ⟨hf, hlt⟩
          exact h ⟨by simpa [bushNeeds] using hf, hlt⟩
        simp [bushUpdateRoomInsts, servePass, hc, h, h2, ih]

/-! ### Generic lemmas about the prioritized room loop -/

theorem list_set_self {β : Type} (l : List β) (i : ℕ) (x : β)
    (h : l.get? i = some x) : l.set i x = l := by
  apply List.ext_get?
  intro j
  by_cases hij : i = j
  · subst hij
    rw [List.get?_set_eq_of_lt _ (by rcases List.get?_eq_some.mp h with ⟨hlt, -⟩; exact hlt)]
    exact h.symm
  · rw [List.get?_set_ne _ _ hij]

theorem forall₂_set {β : Type} {R : β → β → Prop} (hrefl : ∀ a, R a a) :
    ∀ (l : List β) (i : ℕ) (x y : β), l.get? i = some x → R x y →
      List.Forall₂ R l (l.set i y) := by
  intro l
  induction l with
  | nil => intro i x y h _; simp at h
  | cons a rest ih =>
    intro i x y h hxy
    cases i with
    | zero =>
      simp only [List.get?] at h
      injection h with h
      subst h
      exact List.Forall₂.cons hxy (List.forall₂_same.mpr fun b _ => hrefl b)
    | succ i =>
      exact List.Forall₂.cons (hrefl a) (ih i x y h hxy)

theorem forall₂_trans {β : Type} {R : β → β → Prop}
    (htrans : ∀ a b c, R a b → R b c → R a c) :
    ∀ {l1 l2 l3 : List β}, List.Forall₂ R l1 l2 → List.Forall₂ R l2 l3 →
      List.Forall₂ R l1 l3 := by
  intro l1 l2 l3 h12
  induction h12 generalizing l3 with
  | nil => intro h23; cases h23; exact List.Forall₂.nil
  | cons hab h ih =>
    intro h23
    cases h23 with
    | cons hbc h' => exact List.Forall₂.cons (htrans _ _ _ hab hbc) (ih h')

/-- Total flagged-instance count across all room buckets. -/
def sumCountP {α : Type} (isF : α → Bool) (rooms : List (List α)) : ℕ :=
  (rooms.map (List.countP isF)).sum

theorem sumCountP_set {α : Type} (isF : α → Bool) :
    ∀ (l : List (List α)) (i : ℕ) (x y : List α), l.get? i = some x →
      sumCountP isF (l.set i y) + x.countP isF = sumCountP isF l + y.countP isF := by
  intro l
  induction l with
  | nil => intro i x y h; simp at h
  | cons a rest ih =>
    intro i x y h
    cases i with
    | zero =>
      simp only [List.get?] at h
      injection h with h
      subst h
      simp [sumCountP]
      omega
    | succ i =>
      have := ih i x y h
      simp [sumCountP, List.set] at this ⊢
      omega

theorem updateRoomAt_ge8 {α : Type} (pass : List α → ℕ → List α × ℕ)
    (hge8 : ∀ l c, kMaxGroundChecksPerFrame ≤ c → pass l c = (l, c))
    (rooms : List (List α)) (i c : ℕ) (hc : kMaxGroundChecksPerFrame ≤ c) :
    updateRoomAt pass rooms i c = (rooms, c) := by
  unfold updateRoomAt
  cases h : rooms.get? i with
  | none => rfl
  | some room =>
    simp only [hge8 room c hc]
    rw [list_set_self rooms i room h]

theorem updateRoomAt_count_le {α : Type} (pass : List α → ℕ → List α × ℕ)
    (hle8 : ∀ l c, c ≤ kMaxGroundChecksPerFrame →
      (pass l c).2 ≤ kMaxGroundChecksPerFrame)
    (rooms : List (List α)) (i c : ℕ) (hc : c ≤ kMaxGroundChecksPerFrame) :
    (updateRoomAt pass rooms i c).2 ≤ kMaxGroundChecksPerFrame := by
  unfold updateRoomAt
  cases h : rooms.get? i with
  | none => exact hc
  | some room => exact hle8 room c hc

theorem updateRoomAt_sum {α : Type} (pass : List α → ℕ → List α × ℕ)
    (isF : α → Bool)
    (hcnt : ∀ l c, (pass l c).1.countP isF + (pass l c).2 = l.countP isF + c)
    (rooms : List (List α)) (i c : ℕ) :
    sumCountP isF (updateRoomAt pass rooms i c).1 + (updateRoomAt pass rooms i c).2 =
      sumCountP isF rooms + c := by
  unfold updateRoomAt
  cases h : rooms.get? i with
  | none => rfl
  | some room =>
    have hset := sumCountP_set isF rooms i room (pass room c).1 h
    have hpass := hcnt room c
    simp only
    omega

theorem updateRoomAt_mono {α : Type} (pass : List α → ℕ → List α × ℕ)
    (isF : α → Bool)
    (hmono : ∀ l c, List.Forall₂ (fun a b => isF b = true → isF a = true) l (pass l c).1)
    (rooms : List (List α)) (i c : ℕ) :
    List.Forall₂ (List.Forall₂ (fun a b => isF b = true → isF a = true)) rooms
      (updateRoomAt pass rooms i c).1 := by
  unfold updateRoomAt
  cases h : rooms.get? i with
  | none =>
    exact List.forall₂_same.mpr fun b _ => List.forall₂_same.mpr fun a _ => fun hf => hf
  | some room =>
    exact forall₂_set (fun a => List.forall₂_same.mpr fun b _ => fun hf => hf)
      rooms i room (pass room c).1 h (hmono room c)

theorem updateRoomAt_get_ne {α : Type} (pass : List α → ℕ → List α × ℕ)
    (rooms : List (List α)) (i c j : ℕ) (hij : i ≠ j) :
    (updateRoomAt pass rooms i c).1.get? j = rooms.get? j := by
  unfold updateRoomAt
  cases h : rooms.get? i with
  | none => rfl
  | some room => exact List.get?_set_ne _ _ hij

theorem prioGo_ge8 {α : Type} (pass : List α → ℕ → List α × ℕ)
    (hge8 : ∀ l c, kMaxGroundChecksPerFrame ≤ c → pass l c = (l, c)) (mStay : ℕ) :
    ∀ (idxs : List ℕ) (rooms : List (List α)) (c : ℕ),
      kMaxGroundChecksPerFrame ≤ c → prioGo pass mStay idxs rooms c = (rooms, c) := by
  intro idxs
  induction idxs with
  | nil => intro rooms c _; rfl
  | cons i is ih =>
    intro rooms c hc
    by_cases hgt : c > kMaxGroundChecksPerFrame
    · simp [prioGo, hgt]
    · by_cases hi : i = mStay
      · simp [prioGo, hgt, hi, ih rooms c hc]
      · simp [prioGo, hgt, hi, updateRoomAt_ge8 pass hge8 rooms i c hc, ih rooms c hc]

theorem prioGo_count_le {α : Type} (pass : List α → ℕ → List α × ℕ)
    (hle8 : ∀ l c, c ≤ kMaxGroundChecksPerFrame →
      (pass l c).2 ≤ kMaxGroundChecksPerFrame) (mStay : ℕ) :
    ∀ (idxs : List ℕ) (rooms : List (List α)) (c : ℕ),
      c ≤ kMaxGroundChecksPerFrame →
      (prioGo pass mStay idxs rooms c).2 ≤ kMaxGroundChecksPerFrame := by
  intro idxs
  induction idxs with
  | nil => intro rooms c hc; exact hc
  | cons i is ih =>
    intro rooms c hc
    by_cases hgt : c > kMaxGroundChecksPerFrame
    · simpa [prioGo, hgt] using hc
    · by_cases hi : i = mStay
      · simpa [prioGo, hgt, hi] using ih rooms c hc
      · simpa [prioGo, hgt, hi] using
          ih _ _ (updateRoomAt_count_le pass hle8 rooms i c hc)

theorem prioGo_sum {α : Type} (pass : List α → ℕ → List α × ℕ) (isF : α → Bool)
    (hcnt : ∀ l c, (pass l c).1.countP isF + (pass l c).2 = l.countP isF + c)
    (mStay : ℕ) :
    ∀ (idxs : List ℕ) (rooms : List (List α)) (c : ℕ),
      sumCountP isF (prioGo pass mStay idxs rooms c).1 +
          (prioGo pass mStay idxs rooms c).2 =
        sumCountP isF rooms + c := by
  intro idxs
  induction idxs with
  | nil => intro rooms c; rfl
  | cons i is ih =>
    intro rooms c
    by_cases hgt : c > kMaxGroundChecksPerFrame
    · simp [prioGo, hgt]
    · by_cases hi : i = mStay
      · simpa [prioGo, hgt, hi] using ih rooms c
      · have h1 := updateRoomAt_sum pass isF hcnt rooms i c
        have h2 := ih (updateRoomAt pass rooms i c).1 (updateRoomAt pass rooms i c).2
        simp only [prioGo, hgt, hi, if_false, if_neg]
        omega

theorem prioGo_mono {α : Type} (pass : List α → ℕ → List α × ℕ) (isF : α → Bool)
    (hmono : ∀ l c, List.Forall₂ (fun a b => isF b = true → isF a = true) l (pass l c).1)
    (mStay : ℕ) :
    ∀ (idxs : List ℕ) (rooms : List (List α)) (c : ℕ),
      List.Forall₂ (List.Forall₂ (fun a b => isF b = true → isF a = true)) rooms
        (prioGo pass mStay idxs rooms c).1 := by
  intro idxs
  have hRtrans : ∀ a b d : α, (isF b = true → isF a = true) →
      (isF d = true → isF b = true) → (isF d = true → isF a = true) :=
    fun a b d h1 h2 h3 => h1 (h2 h3)
  have hrefl : ∀ (rs : List (List α)),
      List.Forall₂ (List.Forall₂ (fun a b => isF b = true → isF a = true)) rs rs :=
    fun rs => List.forall₂_same.mpr fun b _ => List.forall₂_same.mpr fun a _ hf => hf
  induction idxs with
  | nil => intro rooms c; exact hrefl rooms
  | cons i is ih =>
    intro rooms c
    by_cases hgt : c > kMaxGroundChecksPerFrame
    · simp only [prioGo, hgt, if_true]
      exact hrefl rooms
    · by_cases hi : i = mStay
      · simpa [prioGo, hgt, hi] using ih rooms c
      · simp only [prioGo, hgt, hi, if_false, if_neg]
        have step1 : List.Forall₂
            (List.Forall₂ fun a b => isF b = true → isF a = true) rooms
            (updateRoomAt pass rooms i c).1 :=
          updateRoomAt_mono pass isF hmono rooms i c
        have step2 := ih (updateRoomAt pass rooms i c).1 (updateRoomAt pass rooms i c).2
        have htransS : ∀ x y z : List α,
            List.Forall₂ (fun a b => isF b = true → isF a = true) x y →
            List.Forall₂ (fun a b => isF b = true → isF a = true) y z →
            List.Forall₂ (fun a b => isF b = true → isF a = true) x z :=
          fun x y z h1 h2 => forall₂_trans hRtrans h1 h2
        exact forall₂_trans htransS step1 step2

theorem prioGo_get_mStay {α : Type} (pass : List α → ℕ → List α × ℕ) (mStay : ℕ) :
    ∀ (idxs : List ℕ) (rooms : List (List α)) (c : ℕ),
      (prioGo pass mStay idxs rooms c).1.get? mStay = rooms.get? mStay := by
  intro idxs
  induction idxs with
  | nil => intro rooms c; rfl
  | cons i is ih =>
    intro rooms c
    by_cases hgt : c > kMaxGroundChecksPerFrame
    · simp [prioGo, hgt]
    · by_cases hi : i = mStay
      · simpa [prioGo, hgt, hi] using ih rooms c
      · rw [show prioGo pass mStay (i :: is) rooms c =
            prioGo pass mStay is (updateRoomAt pass rooms i c).1
              (updateRoomAt pass rooms i c).2 by simp [prioGo, hgt, hi]]
        rw [ih _ _, updateRoomAt_get_ne pass rooms i c mStay hi]

theorem prioUpdate_stay_priority {α : Type} (pass : List α → ℕ → List α × ℕ)
    (isF : α → Bool)
    (hge8 : ∀ l c, kMaxGroundChecksPerFrame ≤ c → pass l c = (l, c))
    (hrem : ∀ l c, c ≤ kMaxGroundChecksPerFrame →
      (∃ b ∈ (pass l c).1, isF b = true) → (pass l c).2 = kMaxGroundChecksPerFrame)
    (mStay : ℕ) (rooms : List (List α)) (hlt : mStay < rooms.length)
    (hex : ∃ d ∈ (prioUpdate pass mStay rooms).1.getD mStay [], isF d = true) :
    ∀ j, j ≠ mStay → (prioUpdate pass mStay rooms).1.get? j = rooms.get? j := by
  obtain ⟨room, hroom⟩ : ∃ room, rooms.get? mStay = some room := by
    cases h : rooms.get? mStay with
    | none => rw [List.get?_eq_none] at h; omega
    | some room => exact ⟨room, rfl⟩
  have hUR : updateRoomAt pass rooms mStay 0 =
      (rooms.set mStay (pass room 0).1, (pass room 0).2) := by
    unfold updateRoomAt
    rw [hroom]
  have hstay : (prioUpdate pass mStay rooms).1.get? mStay = some (pass room 0).1 := by
    simp only [prioUpdate, hUR]
    rw [prioGo_get_mStay]
    exact List.get?_set_eq_of_lt _ (by simpa using hlt)
  have hroomEx : ∃ b ∈ (pass room 0).1, isF b = true := by
    have : (prioUpdate pass mStay rooms).1.getD mStay [] = (pass room 0).1 := by
      show ((prioUpdate pass mStay rooms).1.get? mStay).getD [] = _
      rw [hstay]
      rfl
    rwa [this] at hex
  have hc8 : (pass room 0).2 = kMaxGroundChecksPerFrame :=
    hrem room 0 (by simp [kMaxGroundChecksPerFrame]) hroomEx
  intro j hj
  have hfinal : prioUpdate pass mStay rooms =
      (rooms.set mStay (pass room 0).1, kMaxGroundChecksPerFrame) := by
    simp only [prioUpdate, hUR, hc8]
    exact prioGo_ge8 pass hge8 mStay _ _ _ (le_refl _)
  rw [hfinal]
  exact List.get?_set_ne _ _ (fun h => hj h.symm)

theorem prioUpdate_count_le {α : Type} (pass : List α → ℕ → List α × ℕ)
    (hle8 : ∀ l c, c ≤ kMaxGroundChecksPerFrame →
      (pass l c).2 ≤ kMaxGroundChecksPerFrame)
    (mStay : ℕ) (rooms : List (List α)) :
    (prioUpdate pass mStay rooms).2 ≤ kMaxGroundChecksPerFrame := by
  unfold prioUpdate
  exact prioGo_count_le pass hle8 mStay _ _ _
    (updateRoomAt_count_le pass hle8 rooms mStay 0 (by simp [kMaxGroundChecksPerFrame]))

theorem prioUpdate_sum {α : Type} (pass : List α → ℕ → List α × ℕ) (isF : α → Bool)
    (hcnt : ∀ l c, (pass l c).1.countP isF + (pass l c).2 = l.countP isF + c)
    (mStay : ℕ) (rooms : List (List α)) :
    sumCountP isF (prioUpdate pass mStay rooms).1 + (prioUpdate pass mStay rooms).2 =
      sumCountP isF rooms := by
  simp only [prioUpdate]
  have h1 := updateRoomAt_sum pass isF hcnt rooms mStay 0
  have h2 := prioGo_sum pass isF hcnt mStay
    (List.range (updateRoomAt pass rooms mStay 0).1.length)
    (updateRoomAt pass rooms mStay 0).1 (updateRoomAt pass rooms mStay 0).2
  omega

theorem prioUpdate_mono {α : Type} (pass : List α → ℕ → List α × ℕ) (isF : α → Bool)
    (hmono : ∀ l c, List.Forall₂ (fun a b => isF b = true → isF a = true) l (pass l c).1)
    (mStay : ℕ) (rooms : List (List α)) :
    List.Forall₂ (List.Forall₂ (fun a b => isF b = true → isF a = true)) rooms
      (prioUpdate pass mStay rooms).1 := by
  unfold prioUpdate
  have hRtrans : ∀ a b d : α, (isF b = true → isF a = true) →
      (isF d = true → isF b = true) → (isF d = true → isF a = true) :=
    fun a b d h1 h2 h3 => h1 (h2 h3)
  have htransS : ∀ x y z : List α,
      List.Forall₂ (fun a b => isF b = true → isF a = true) x y →
      List.Forall₂ (fun a b => isF b = true → isF a = true) y z →
      List.Forall₂ (fun a b => isF b = true → isF a = true) x z :=
    fun x y z h1 h2 => forall₂_trans hRtrans h1 h2
  exact forall₂_trans htransS (updateRoomAt_mono pass isF hmono rooms mStay 0)
    (prioGo_mono pass isF hmono mStay _ _ _)

/-! ### Flower room loop lemmas (no prioritization, same budget shape) -/

theorem flowerUpdateRooms_count_le (gnd : Gnd) :
    ∀ (rs : List (List FlowerData)) (c : ℕ), c ≤ kMaxGroundChecksPerFrame →
      (flowerUpdateRooms gnd rs c).2 ≤ kMaxGroundChecksPerFrame := by
  intro rs
  induction rs with
  | nil => intro c hc; exact hc
  | cons r rest ih =>
    intro c hc
    simp only [flowerUpdateRooms]
    exact ih _ (by
      rw [flowerUpdateInsts_eq]
      exact servePass_count_le (flowerService gnd) flowerNeeds r c hc)

theorem flowerUpdateRooms_sum (gnd : Gnd) :
    ∀ (rs : List (List FlowerData)) (c : ℕ),
      sumCountP flowerNeeds (flowerUpdateRooms gnd rs c).1 +
          (flowerUpdateRooms gnd rs c).2 =
        sumCountP flowerNeeds rs + c := by
  intro rs
  induction rs with
  | nil => intro c; rfl
  | cons r rest ih =>
    intro c
    simp only [flowerUpdateRooms]
    have h1 : (flowerUpdateInsts gnd r c).1.countP flowerNeeds +
        (flowerUpdateInsts gnd r c).2 = r.countP flowerNeeds + c := by
      rw [flowerUpdateInsts_eq]
      exact servePass_countP (flowerService gnd) flowerNeeds
        (flowerService_clears gnd) r c
    have h2 := ih (flowerUpdateInsts gnd r c).2
    simp only [sumCountP, List.map_cons, List.sum_cons] at h2 ⊢
    omega

theorem flowerUpdateRooms_mono (gnd : Gnd) :
    ∀ (rs : List (List FlowerData)) (c : ℕ),
      List.Forall₂ (List.Forall₂ (fun a b => flowerNeeds b = true → flowerNeeds a = true))
        rs (flowerUpdateRooms gnd rs c).1 := by
  intro rs
  induction rs with
  | nil => intro c; exact List.Forall₂.nil
  | cons r rest ih =>
    intro c
    simp only [flowerUpdateRooms]
    refine List.Forall₂.cons ?_ (ih _)
    rw [flowerUpdateInsts_eq]
    exact servePass_mono (flowerService gnd) flowerNeeds (flowerService_clears gnd) r c

/-! ## Claim C1 -/

/-- Ground oracle for concrete scenarios: every query hits flat ground at
height 0 with an upward normal. -/
def gndFlat : Gnd := fun _ _ _ => GndRes.hit 0 (0, 1, 0)

/-- A freshly spawned white flower (flags = `needsGroundCheck`). -/
def flowerInst : FlowerData :=
  FlowerPacket.newData "Hyrule" ⟨0, .fin 100, 0⟩ false 0 0 0

/-- C1 counterexample configuration: 8 flagged flowers in room 0, one
flagged flower in room 1 (the occupied room, `mStayNo = 1`), rooms 2-63
empty. -/
def c1Rooms : List (List FlowerData) :=
  List.replicate 8 flowerInst :: [flowerInst] :: List.replicate 62 []

/-- C1 counterexample: the production `FlowerPacket.update` iterates the
64 room buckets in index order and never consults `mStayNo`.  With
`mStayNo = 1`, one update call spends the whole 8-query budget on room 0
(every room-0 instance is serviced, so bucket 0 changes) while the
flagged instance inside the occupied room 1 remains unserviced — the
claimed prioritization fails for the Flower packet. -/
theorem flowerPacket_no_stay_priority :
    (∃ d ∈ (FlowerPacket.update gndFlat c1Rooms).1.getD 1 [], flowerNeeds d = true) ∧
      (FlowerPacket.update gndFlat c1Rooms).1.get? 0 ≠ c1Rooms.get? 0 := by
  decide

/-- C1 (amended): the Tree, Grass and Bush packets service the currently
occupied room (`mStayNo`) first.  If, after one `update` call, a flagged
instance in room `mStayNo` remains unserviced (its per-call query budget
ran out), then every other room bucket is returned exactly as it was —
no instance outside room `mStayNo` was serviced.  The Flower packet does
not prioritize `mStayNo` (see the counterexample). -/
theorem stayRoomIsPrioritized :
    (∀ (gnd : Gnd) (mStay : ℕ) (rooms : List (List TreeData)),
      mStay < rooms.length →
      (∃ d ∈ (TreePacket.update gnd mStay rooms).1.getD mStay [], treeNeeds d = true) →
      ∀ j, j ≠ mStay →
        (TreePacket.update gnd mStay rooms).1.get? j = rooms.get? j) ∧
    (∀ (gnd : Gnd) (mStay : ℕ) (rooms : List (List GrassData)),
      mStay < rooms.length →
      (∃ d ∈ (GrassPacket.update gnd mStay rooms).1.getD mStay [], grassNeeds d = true) →
      ∀ j, j ≠ mStay →
        (GrassPacket.update gnd mStay rooms).1.get? j = rooms.get? j) ∧
    (∀ (gnd : Gnd) (mStay : ℕ) (rooms : List (List BushData)),
      mStay < rooms.length →
      (∃ d ∈ (BushPacket.update gnd mStay rooms).1.getD mStay [], bushNeeds d = true) →
      ∀ j, j ≠ mStay →
        (BushPacket.update gnd mStay rooms).1.get? j = rooms.get? j) := by
  refine ⟨?_, ?_, ?_⟩
  · intro gnd mStay rooms hlt hex
    exact prioUpdate_stay_priority (treeUpdateRoomInsts gnd) treeNeeds
      (fun l c hc => by
        rw [treeUpdateRoomInsts_eq]
        exact servePass_ge8 (treeService gnd) treeNeeds l c hc)
      (fun l c hc hb => by
        rw [treeUpdateRoomInsts_eq] at hb ⊢
        exact servePass_flag_rem (treeService gnd) treeNeeds
          (treeService_clears gnd) l c hc hb)
      mStay rooms hlt hex
  · intro gnd mStay rooms hlt hex
    exact prioUpdate_stay_priority (grassUpdateRoomInsts gnd) grassNeeds
      (fun l c hc => by
        rw [grassUpdateRoomInsts_eq]
        exact servePass_ge8 (grassService gnd) grassNeeds l c hc)
      (fun l c hc hb => by
        rw [grassUpdateRoomInsts_eq] at hb ⊢
        exact servePass_flag_rem (grassService gnd) grassNeeds
          (grassService_clears gnd) l c hc hb)
      mStay rooms hlt hex
  · intro gnd mStay rooms hlt hex
    exact prioUpdate_stay_priority (bushUpdateRoomInsts gnd) bushNeeds
      (fun l c hc => by
        rw [bushUpdateRoomInsts_eq]
        exact servePass_ge8 (bushService gnd) bushNeeds l c hc)
      (fun l c hc hb => by
        rw [bushUpdateRoomInsts_eq] at hb ⊢
        exact servePass_flag_rem (bushService gnd) bushNeeds
          (bushService_clears gnd) l c hc hb)
      mStay rooms hlt hex

/-- Nine flagged trees in room 0 (more than the budget of 8). -/
def c1TreeRooms : List (List TreeData) :=
  [List.replicate 9 (TreePacket.newData ⟨0, .fin 100, 0⟩ 0 0)]

/-- C1 witness: with 9 flagged trees in the occupied room 0, the budget
runs out inside room 0 and the theorem applies. -/
theorem stayRoomIsPrioritized_witness :
    (0 : ℕ) < c1TreeRooms.length ∧
      (∀ j, j ≠ 0 →
        (TreePacket.update gndFlat 0 c1TreeRooms).1.get? j = c1TreeRooms.get? j) :=
  ⟨by decide, stayRoomIsPrioritized.1 gndFlat 0 c1TreeRooms (by decide) (by decide)⟩

/-! ## Claim C2 -/

/-- A freshly spawned tree (flags = `needsGroundCheck`). -/
def treeInst : TreeData := TreePacket.newData ⟨0, .fin 100, 0⟩ 0 0

/-- A freshly spawned grass clump (flags = `needsGroundCheck`). -/
def grassInst : GrassData := GrassPacket.newData ⟨0, .fin 100, 0⟩ 0 0

/-- A freshly spawned bush (flags = `needsGroundCheck`). -/
def bushInst : BushData := BushPacket.newData ⟨0, .fin 100, 0⟩ 0 0

/-- 20 flagged instances in room 0, none in the other 63 rooms. -/
def c2FlowerRooms : List (List FlowerData) :=
  List.replicate 20 flowerInst :: List.replicate 63 []

def c2TreeRooms : List (List TreeData) :=
  List.replicate 20 treeInst :: List.replicate 63 []

def c2GrassRooms : List (List GrassData) :=
  List.replicate 20 grassInst :: List.replicate 63 []

def c2BushRooms : List (List BushData) :=
  List.replicate 20 bushInst :: List.replicate 63 []

/-- C2: every production foliage packet performs at most 8 ground-height
queries per `update` call across all 64 room buckets (the returned
counter is the number of queries issued), never sets a `needsGroundCheck`
flag (pointwise, a flag set after the call was set before), and the
number of flags it clears equals the number of queries it issues; in
particular, with 20 flagged instances in one room and none elsewhere,
one call services exactly 8 of them and leaves 12 flagged. -/
theorem groundCheckBudget :
    (∀ (gnd : Gnd) (rooms : List (List FlowerData)),
      (FlowerPacket.update gnd rooms).2 ≤ kMaxGroundChecksPerFrame ∧
      sumCountP flowerNeeds (FlowerPacket.update gnd rooms).1 +
          (FlowerPacket.update gnd rooms).2 = sumCountP flowerNeeds rooms ∧
      List.Forall₂ (List.Forall₂ fun a b => flowerNeeds b = true → flowerNeeds a = true)
        rooms (FlowerPacket.update gnd rooms).1) ∧
    (∀ (gnd : Gnd) (mStay : ℕ) (rooms : List (List TreeData)), mStay < rooms.length →
      (TreePacket.update gnd mStay rooms).2 ≤ kMaxGroundChecksPerFrame ∧
      sumCountP treeNeeds (TreePacket.update gnd mStay rooms).1 +
          (TreePacket.update gnd mStay rooms).2 = sumCountP treeNeeds rooms ∧
      List.Forall₂ (List.Forall₂ fun a b => treeNeeds b = true → treeNeeds a = true)
        rooms (TreePacket.update gnd mStay rooms).1) ∧
    (∀ (gnd : Gnd) (mStay : ℕ) (rooms : List (List GrassData)), mStay < rooms.length →
      (GrassPacket.update gnd mStay rooms).2 ≤ kMaxGroundChecksPerFrame ∧
      sumCountP grassNeeds (GrassPacket.update gnd mStay rooms).1 +
          (GrassPacket.update gnd mStay rooms).2 = sumCountP grassNeeds rooms ∧
      List.Forall₂ (List.Forall₂ fun a b => grassNeeds b = true → grassNeeds a = true)
        rooms (GrassPacket.update gnd mStay rooms).1) ∧
    (∀ (gnd : Gnd) (mStay : ℕ) (rooms : List (List BushData)), mStay < rooms.length →
      (BushPacket.update gnd mStay rooms).2 ≤ kMaxGroundChecksPerFrame ∧
      sumCountP bushNeeds (BushPacket.update gnd mStay rooms).1 +
          (BushPacket.update gnd mStay rooms).2 = sumCountP bushNeeds rooms ∧
      List.Forall₂ (List.Forall₂ fun a b => bushNeeds b = true → bushNeeds a = true)
        rooms (BushPacket.update gnd mStay rooms).1) ∧
    ((FlowerPacket.update gndFlat c2FlowerRooms).2 = 8 ∧
      ((FlowerPacket.update gndFlat c2FlowerRooms).1.getD 0 []).countP flowerNeeds = 12 ∧
      ((FlowerPacket.update gndFlat c2FlowerRooms).1.getD 0 []).length = 20) ∧
    ((TreePacket.update gndFlat 0 c2TreeRooms).2 = 8 ∧
      ((TreePacket.update gndFlat 0 c2TreeRooms).1.getD 0 []).countP treeNeeds = 12 ∧
      ((TreePacket.update gndFlat 0 c2TreeRooms).1.getD 0 []).length = 20) ∧
    ((GrassPacket.update gndFlat 0 c2GrassRooms).2 = 8 ∧
      ((GrassPacket.update gndFlat 0 c2GrassRooms).1.getD 0 []).countP grassNeeds = 12 ∧
      ((GrassPacket.update gndFlat 0 c2GrassRooms).1.getD 0 []).length = 20) ∧
    ((BushPacket.update gndFlat 0 c2BushRooms).2 = 8 ∧
      ((BushPacket.update gndFlat 0 c2BushRooms).1.getD 0 []).countP bushNeeds = 12 ∧
      ((BushPacket.update gndFlat 0 c2BushRooms).1.getD 0 []).length = 20) := by
  refine ⟨?_, ?_, ?_, ?_, by decide, by decide, by decide, by decide⟩
  · intro gnd rooms
    refine ⟨?_, ?_, ?_⟩
    · exact flowerUpdateRooms_count_le gnd rooms 0 (by simp [kMaxGroundChecksPerFrame])
    · simpa using flowerUpdateRooms_sum gnd rooms 0
    · exact flowerUpdateRooms_mono gnd rooms 0
  · intro gnd mStay rooms _
    refine ⟨?_, ?_, ?_⟩
    · exact prioUpdate_count_le (treeUpdateRoomInsts gnd)
        (fun l c hc => by
          rw [treeUpdateRoomInsts_eq]
          exact servePass_count_le (treeService gnd) treeNeeds l c hc) mStay rooms
    · exact prioUpdate_sum (treeUpdateRoomInsts gnd) treeNeeds
        (fun l c => by
          rw [treeUpdateRoomInsts_eq]
          exact servePass_countP (treeService gnd) treeNeeds
            (treeService_clears gnd) l c) mStay rooms
    · exact prioUpdate_mono (treeUpdateRoomInsts gnd) treeNeeds
        (fun l c => by
          rw [treeUpdateRoomInsts_eq]
          exact servePass_mono (treeService gnd) treeNeeds
            (treeService_clears gnd) l c) mStay rooms
  · intro gnd mStay rooms _
    refine ⟨?_, ?_, ?_⟩
    · exact prioUpdate_count_le (grassUpdateRoomInsts gnd)
        (fun l c hc => by
          rw [grassUpdateRoomInsts_eq]
          exact servePass_count_le (grassService gnd) grassNeeds l c hc) mStay rooms
    · exact prioUpdate_sum (grassUpdateRoomInsts gnd) grassNeeds
        (fun l c => by
          rw [grassUpdateRoomInsts_eq]
          exact servePass_countP (grassService gnd) grassNeeds
            (grassService_clears gnd) l c) mStay rooms
    · exact prioUpdate_mono (grassUpdateRoomInsts gnd) grassNeeds
        (fun l c => by
          rw [grassUpdateRoomInsts_eq]
          exact servePass_mono (grassService gnd) grassNeeds
            (grassService_clears gnd) l c) mStay rooms
  · intro gnd mStay rooms _
    refine ⟨?_, ?_, ?_⟩
    · exact prioUpdate_count_le (bushUpdateRoomInsts gnd)
        (fun l c hc => by
          rw [bushUpdateRoomInsts_eq]
          exact servePass_count_le (bushService gnd) bushNeeds l c hc) mStay rooms
    · exact prioUpdate_sum (bushUpdateRoomInsts gnd) bushNeeds
        (fun l c => by
          rw [bushUpdateRoomInsts_eq]
          exact servePass_countP (bushService gnd) bushNeeds
            (bushService_clears gnd) l c) mStay rooms
    · exact prioUpdate_mono (bushUpdateRoomInsts gnd) bushNeeds
        (fun l c => by
          rw [bushUpdateRoomInsts_eq]
          exact servePass_mono (bushService gnd) bushNeeds
            (bushService_clears gnd) l c) mStay rooms

/-- C2 witness: the tree clause applied at the 20-instance scenario. -/
theorem groundCheckBudget_witness :
    (0 : ℕ) < c2TreeRooms.length ∧
      ((TreePacket.update gndFlat 0 c2TreeRooms).2 ≤ kMaxGroundChecksPerFrame ∧
        sumCountP treeNeeds (TreePacket.update gndFlat 0 c2TreeRooms).1 +
            (TreePacket.update gndFlat 0 c2TreeRooms).2 =
          sumCountP treeNeeds c2TreeRooms ∧
        List.Forall₂ (List.Forall₂ fun a b => treeNeeds b = true → treeNeeds a = true)
          c2TreeRooms (TreePacket.update gndFlat 0 c2TreeRooms).1) :=
  ⟨by decide, groundCheckBudget.2.1 gndFlat 0 c2TreeRooms (by decide)⟩

/-! ## Claim C3 -/

/-- C3 counterexample: a Linear-mode ListParameter curve with the 3 keys
(0,0), (1,1), (2,0), queried at t = 1/2 strictly between the adjacent
keys (0,0) and (1,1).  Because `prepare()`'s switch falls through into
the B-spline case, the curve evaluates the non-uniform B-spline (11/24)
instead of the claimed linear interpolation (1/2). -/
theorem listParameterLinearThreeKeys_cex :
    (FVB.mkListParameter FVB.EInterpolateType.Linear [0, 0, 1, 1, 2, 0]).getValue (1/2) =
        11/24 ∧
      FVB.interpLinearFormula (1/2) 0 0 1 1 = 1/2 ∧ (11/24 : ℚ) ≠ 1/2 := by
  refine ⟨?_, ?_, by norm_num⟩
  · norm_num [FVB.ListParam.getValue, FVB.mkListParameter, FVB.prepareSel, FVB.findKeyIdx,
      FVB.interpolateBSpline, FVB.bsplineNonuniform]
  · norm_num [FVB.interpLinearFormula]

/-- C3 (amended): the linear-interpolation result holds in Linear mode
for key count exactly 2 (where the fall-through B-spline case falls back
to linear): for keys (t0,v0), (t1,v1) and t strictly between them,
`getValue` returns `v0 + (v1-v0)*(t-t0)/(t1-t0)`.  With 3 or more keys
the missing `break`s select B-spline interpolation instead. -/
theorem listParameterLinearTwoKeys (t0 v0 t1 v1 t : ℚ) (h0 : t0 < t) (h1 : t < t1) :
    (FVB.mkListParameter FVB.EInterpolateType.Linear [t0, v0, t1, v1]).getValue t =
      v0 + (v1 - v0) * (t - t0) / (t1 - t0) := by
  have hf : FVB.findKeyIdx t [t0, v0, t1, v1] 0 = some 2 := by
    simp [FVB.findKeyIdx, h0.not_le, h1.le]
  simp [FVB.ListParam.getValue, FVB.mkListParameter, hf, FVB.prepareSel,
    FVB.interpolateLinear, FVB.interpLinearFormula]

/-- C3 witness: keys (0,1), (1,5) at t = 1/2 give 3. -/
theorem listParameterLinearTwoKeys_witness :
    (0 : ℚ) < 1/2 ∧ (1/2 : ℚ) < 1 ∧
      (FVB.mkListParameter FVB.EInterpolateType.Linear [0, 1, 1, 5]).getValue (1/2) =
        1 + (5 - 1) * (1/2 - 0) / (1 - 0) :=
  ⟨by norm_num, by norm_num, listParameterLinearTwoKeys 0 1 1 5 (1/2) (by norm_num) (by norm_num)⟩

/-! ## Claim C4 -/

/-- The sequence data of C4: a block whose id has length 3, so the
sequence region starts at `0xC + align(3+1, 4) = 0x10`, and whose first
(and only) sequence command word is `0x00000000` — the End command. -/
def c4Data : List ℕ := List.replicate 20 0

/-- C4: a program whose very first sequence command is End, with no
suspension active, ticked once by `forward(frameCount)` for any
frameCount: the run performs `do_begin`, exactly one zero-length
`do_wait(0)`, then `do_end`; the status is assigned Wait and then End —
Suspend is never entered — and `forward` returns false. -/
theorem sequenceEndCommandImmediate (frameCount : ℕ) :
    STBObject.forward false c4Data 3 (STBObject.initialState 3 0) frameCount false [] [] =
      some (false,
        { mFlags := 0, mStatus := .End, mIsSequence := false, mSuspendFrames := 0,
          mWait := 0, pSequence := 0, pSequence_next := 0 },
        [.Begin, .Wait 0, .End], [.Wait, .End]) ∧
      EStatus.Suspend ∉ ([EStatus.Wait, EStatus.End] : List EStatus) :=
  ⟨rfl, by decide⟩

/-! ## Claim C5 -/

/-- C5: `TParagraph.parse` selects the 16-bit header form (u16 size, u16
type at +2, payload at +4) exactly when the top bit of the first u16 is
clear, and the 32-bit form (u32 size with the top bit masked, u32 type
at +4, payload at +8) otherwise; concretely, bytes `80 00 00 10 …`
decode size 0x10 with a u32 type read at +4, and bytes `00 10 …` decode
size 0x10 with a u16 type read at +2. -/
theorem paragraphHeaderFormSelection :
    (∀ (view : List ℕ) (byteIdx : ℕ),
      (getUint16 view byteIdx &&& 0x8000 = 0 →
        (TParagraph.parse view byteIdx).dataSize = getUint16 view byteIdx ∧
        (TParagraph.parse view byteIdx).type = getUint16 view (byteIdx + 2) ∧
        ((TParagraph.parse view byteIdx).dataSize ≠ 0 →
          (TParagraph.parse view byteIdx).dataOffset = byteIdx + 4)) ∧
      (getUint16 view byteIdx &&& 0x8000 ≠ 0 →
        (TParagraph.parse view byteIdx).dataSize = getUint32 view byteIdx &&& 0x7FFFFFFF ∧
        (TParagraph.parse view byteIdx).type = getUint32 view (byteIdx + 4) ∧
        ((TParagraph.parse view byteIdx).dataSize ≠ 0 →
          (TParagraph.parse view byteIdx).dataOffset = byteIdx + 8))) ∧
    TParagraph.parse [0x80, 0x00, 0x00, 0x10, 0x00, 0x00, 0x01, 0x02] 0 =
      { dataSize := 0x10, type := 0x102, dataOffset := 8, nextOffset := 24 } ∧
    TParagraph.parse [0x00, 0x10, 0x00, 0x42] 0 =
      { dataSize := 0x10, type := 0x42, dataOffset := 4, nextOffset := 20 } := by
  refine ⟨?_, by decide, by decide⟩
  intro view byteIdx
  constructor
  · intro h
    simp only [TParagraph.parse, h, if_true, reduceIte]
    split <;> rename_i hz
    · exact ⟨rfl, rfl, fun hne => absurd hz hne⟩
    · exact ⟨rfl, rfl, fun _ => rfl⟩
  · intro h
    simp only [TParagraph.parse, h, if_false, reduceIte]
    split <;> rename_i hz
    · exact ⟨rfl, rfl, fun hne => absurd hz hne⟩
    · exact ⟨rfl, rfl, fun _ => rfl⟩

/-- C5 witness: both implications applied at the two concrete headers. -/
theorem paragraphHeaderFormSelection_witness :
    (getUint16 [0x00, 0x10, 0x00, 0x42] 0 &&& 0x8000 = 0 ∧
      ((TParagraph.parse [0x00, 0x10, 0x00, 0x42] 0).dataSize =
          getUint16 [0x00, 0x10, 0x00, 0x42] 0 ∧
        (TParagraph.parse [0x00, 0x10, 0x00, 0x42] 0).type =
          getUint16 [0x00, 0x10, 0x00, 0x42] 2 ∧
        ((TParagraph.parse [0x00, 0x10, 0x00, 0x42] 0).dataSize ≠ 0 →
          (TParagraph.parse [0x00, 0x10, 0x00, 0x42] 0).dataOffset = 4))) ∧
    (getUint16 [0x80, 0x00, 0x00, 0x10, 0x00, 0x00, 0x01, 0x02] 0 &&& 0x8000 ≠ 0 ∧
      ((TParagraph.parse [0x80, 0x00, 0x00, 0x10, 0x00, 0x00, 0x01, 0x02] 0).dataSize =
          getUint32 [0x80, 0x00, 0x00, 0x10, 0x00, 0x00, 0x01, 0x02] 0 &&& 0x7FFFFFFF ∧
        (TParagraph.parse [0x80, 0x00, 0x00, 0x10, 0x00, 0x00, 0x01, 0x02] 0).type =
          getUint32 [0x80, 0x00, 0x00, 0x10, 0x00, 0x00, 0x01, 0x02] 4 ∧
        ((TParagraph.parse [0x80, 0x00, 0x00, 0x10, 0x00, 0x00, 0x01, 0x02] 0).dataSize ≠ 0 →
          (TParagraph.parse [0x80, 0x00, 0x00, 0x10, 0x00, 0x00, 0x01, 0x02] 0).dataOffset =
            8))) :=
  ⟨⟨by decide, (paragraphHeaderFormSelection.1 [0x00, 0x10, 0x00, 0x42] 0).1 (by decide)⟩,
   ⟨by decide,
    (paragraphHeaderFormSelection.1 [0x80, 0x00, 0x00, 0x10, 0x00, 0x00, 0x01, 0x02] 0).2
      (by decide)⟩⟩

/-! ## Claim C6 -/

/-- C6: for the Linear-mode curve with keys (0,1), (1,5): `getValue(-1)`
returns 1, `getValue(0.5)` returns 3, `getValue(2)` returns 5; more
generally any query at or before the first key time returns the first
value and any query at or after the last key time returns the last
value. -/
theorem listParameterBoundary :
    (FVB.mkListParameter FVB.EInterpolateType.Linear [0, 1, 1, 5]).getValue (-1) = 1 ∧
    (FVB.mkListParameter FVB.EInterpolateType.Linear [0, 1, 1, 5]).getValue (1/2) = 3 ∧
    (FVB.mkListParameter FVB.EInterpolateType.Linear [0, 1, 1, 5]).getValue 2 = 5 ∧
    (∀ t : ℚ, t ≤ 0 →
      (FVB.mkListParameter FVB.EInterpolateType.Linear [0, 1, 1, 5]).getValue t = 1) ∧
    (∀ t : ℚ, 1 ≤ t →
      (FVB.mkListParameter FVB.EInterpolateType.Linear [0, 1, 1, 5]).getValue t = 5) := by
  refine ⟨by decide, ?_, by decide, ?_, ?_⟩
  · norm_num [FVB.ListParam.getValue, FVB.mkListParameter, FVB.prepareSel, FVB.findKeyIdx,
      FVB.interpolateLinear, FVB.interpLinearFormula]
  · intro t ht
    have hf : FVB.findKeyIdx t [0, 1, 1, 5] 0 = some 0 := by
      simp [FVB.findKeyIdx, ht]
    simp [FVB.ListParam.getValue, FVB.mkListParameter, hf]
  · intro t ht
    rcases eq_or_lt_of_le ht with heq | hlt
    · subst heq
      norm_num [FVB.ListParam.getValue, FVB.mkListParameter, FVB.prepareSel, FVB.findKeyIdx,
        FVB.interpolateLinear, FVB.interpLinearFormula]
    · have h0 : ¬ t ≤ 0 := by linarith
      have h1 : ¬ t ≤ 1 := not_le.mpr hlt
      have hf : FVB.findKeyIdx t [0, 1, 1, 5] 0 = none := by
        simp [FVB.findKeyIdx, h0, h1]
      simp [FVB.ListParam.getValue, FVB.mkListParameter, hf]

/-- C6 witness: the two boundary clauses applied at t = -1 and t = 2. -/
theorem listParameterBoundary_witness :
    ((-1 : ℚ) ≤ 0 ∧
      (FVB.mkListParameter FVB.EInterpolateType.Linear [0, 1, 1, 5]).getValue (-1) = 1) ∧
    ((1 : ℚ) ≤ 2 ∧
      (FVB.mkListParameter FVB.EInterpolateType.Linear [0, 1, 1, 5]).getValue 2 = 5) :=
  ⟨⟨by norm_num, listParameterBoundary.2.2.2.1 (-1) (by norm_num)⟩,
   ⟨by norm_num, listParameterBoundary.2.2.2.2 2 (by norm_num)⟩⟩

/-! ## Claim C7 -/

/-- C7: parameter word 0x2 decodes `spawnPatternId = 2`,
`foliageType = Grass (0)`, `itemIdx = 0`; pattern 2 is {group 1,
count 15}; the subload registers exactly 15 Grass-Packet instances, the
j-th at the actor position plus the j-th offset of group 1 (whose first
entries are (-18,0,76), (-15,0,26), (133,0,0)) — for every actor
position and yaw rotation, i.e. the rotation is never applied. -/
theorem grassSpawnDecode :
    (∀ (pos : V3) (rotY : V3 → V3) (roomNo : ℕ),
      d_a_grass.subload 2 pos rotY roomNo =
        ((d_a_grass.kSpawnOffsets.getD 1 []).take 15).map
          (fun o => d_a_grass.SpawnReg.grass (vadd o pos) roomNo 0)) ∧
    2 &&& 0x00F = 2 ∧ (2 &&& 0x030) >>> 4 = 0 ∧ (2 >>> 6) &&& 0x3F = 0 ∧
    d_a_grass.kSpawnPatterns.getD (2 &&& 0x00F) (0, 0) = (1, 15) ∧
    (d_a_grass.kSpawnOffsets.getD 1 []).take 3 =
      [(-18, 0, 76), (-15, 0, 26), (133, 0, 0)] ∧
    (∀ (pos : V3) (rotY : V3 → V3) (roomNo : ℕ),
      (d_a_grass.subload 2 pos rotY roomNo).length = 15) := by
  refine ⟨?_, by decide, by decide, by decide, by decide, by decide, ?_⟩
  · intro pos rotY roomNo
    rfl
  · intro pos rotY roomNo
    rfl

/-! ## Claim C8 -/

/-- C8 counterexample: the claim quantifies over every exponent `k`, but
at `k = 0` (where `Math.pow(0, 0) = 1`, matching `(0:ℚ)^0 = 1`),
`gain(0,0) = 0.5 ≠ 0` and `gain(1,0) = 0.5 ≠ 1`. -/
theorem gainEndpointZeroExponent_cex :
    gain 0 0 = 1/2 ∧ gain 0 0 ≠ 0 ∧ gain 1 0 = 1/2 ∧ gain 1 0 ≠ 1 := by
  refine ⟨?_, ?_, ?_, ?_⟩ <;> norm_num [gain]

/-- C8 (amended): `gain(0.5,k) = 0.5` for every exponent, and the
point symmetry `gain(v,k) = 1 - gain(1-v,k)` holds for every `v < 0.5`
and every exponent; the endpoint identities `gain(0,k) = 0` and
`gain(1,k) = 1` hold for every exponent `k ≥ 1` (they fail at `k = 0`,
see the counterexample; the exposed toon power range is 1–15). -/
theorem gainPointSymmetry (v : ℚ) (k : ℕ) :
    gain (1/2) k = 1/2 ∧
    (1 ≤ k → gain 0 k = 0 ∧ gain 1 k = 1) ∧
    (v < 1/2 → gain v k = 1 - gain (1 - v) k) := by
  refine ⟨?_, ?_, ?_⟩
  · norm_num [gain]
  · intro hk
    have hk' : k ≠ 0 := by omega
    constructor
    · norm_num [gain, zero_pow hk']
    · norm_num [gain, zero_pow hk']
  · intro hv
    have hv' : ¬ (1 - v < 1/2) := by linarith
    simp only [gain, if_pos hv, if_neg hv']
    have h1 : (1 : ℚ) - (1 - v) = v := by ring
    rw [h1]
    ring

/-- C8 witness: the endpoint identities at k = 2 and the symmetry at
v = 1/4, k = 2. -/
theorem gainPointSymmetry_witness :
    (1 ≤ 2 ∧ gain 0 2 = 0 ∧ gain 1 2 = 1) ∧
      ((1/4 : ℚ) < 1/2 ∧ gain (1/4) 2 = 1 - gain (1 - 1/4) 2) :=
  ⟨⟨by norm_num, (gainPointSymmetry (1/4) 2).2.1 (by norm_num)⟩,
   ⟨by norm_num, (gainPointSymmetry (1/4) 2).2.2 (by norm_num)⟩⟩

/-! ## Claim C9 -/

/-- C9: when every one of the legacy flower packet's slots is occupied,
`newData` warns (`findIndex` returns -1) and the spawn is dropped: the
slot array is returned exactly as it was — no slot is overwritten and no
slot gains the new record. -/
theorem legacyFlowerCapacityDrop (stage : String)
    (datas : List (Option LegacyFlowerData)) (pos : Pos3) (type : FlowerType)
    (roomIdx itemIdx animIdx : ℕ) (hlen : datas.length = kMaxFlowerDatas)
    (hfull : ∀ x ∈ datas, x.isSome) :
    (LegacyFlowerPacket.newData stage datas pos type roomIdx itemIdx animIdx).1 =
        datas ∧
      (LegacyFlowerPacket.newData stage datas pos type roomIdx itemIdx animIdx).2.2 =
        true := by
  have hfind : datas.findIdx? (fun d => d.isNone) = none := by
    rw [List.findIdx?_eq_none_iff]
    intro x hx
    have h := hfull x hx
    cases x with
    | none => simp at h
    | some a => simp
  constructor
  · simp [LegacyFlowerPacket.newData, hfind, LegacyFlowerPacket.setData]
  · simp [LegacyFlowerPacket.newData, hfind]

/-- An arbitrary occupied legacy slot. -/
def legacyRec : LegacyFlowerData :=
  { flags := FlowerFlags.needsGroundCheck, type := .WHITE, animIdx := 0, itemIdx := 0,
    particleLifetime := 0, pos := ⟨0, .fin 0, 0⟩ }

set_option maxRecDepth 4000 in
/-- C9 witness: a full array of 200 occupied slots. -/
theorem legacyFlowerCapacityDrop_witness :
    (List.replicate 200 (some legacyRec)).length = kMaxFlowerDatas ∧
      ((LegacyFlowerPacket.newData "sea" (List.replicate 200 (some legacyRec))
            ⟨1, .fin 2, 3⟩ .PINK 0x21 0 0).1 = List.replicate 200 (some legacyRec) ∧
        (LegacyFlowerPacket.newData "sea" (List.replicate 200 (some legacyRec))
            ⟨1, .fin 2, 3⟩ .PINK 0x21 0 0).2.2 = true) :=
  ⟨by simp [kMaxFlowerDatas],
   legacyFlowerCapacityDrop "sea" (List.replicate 200 (some legacyRec))
     ⟨1, .fin 2, 3⟩ .PINK 0x21 0 0 (by simp [kMaxFlowerDatas])
     (fun x hx => by rw [List.eq_of_mem_replicate hx]; rfl)⟩

/-! ## Claim C10 -/

theorem buildShadowMtx_translation (m : List ERat) (hm : m.length = 16)
    (x z : ℚ) (y : ERat) (n : V3) :
    (buildShadowMtx m x z y n).getD 12 (.fin 0) = .fin x ∧
    (buildShadowMtx m x z y n).getD 13 (.fin 0) = y.addQ 1 ∧
    (buildShadowMtx m x z y n).getD 14 (.fin 0) = .fin z := by
  rcases m with _ | ⟨a0, m⟩; · simp at hm
  rcases m with _ | ⟨a1, m⟩; · simp at hm
  rcases m with _ | ⟨a2, m⟩; · simp at hm
  rcases m with _ | ⟨a3, m⟩; · simp at hm
  rcases m with _ | ⟨a4, m⟩; · simp at hm
  rcases m with _ | ⟨a5, m⟩; · simp at hm
  rcases m with _ | ⟨a6, m⟩; · simp at hm
  rcases m with _ | ⟨a7, m⟩; · simp at hm
  rcases m with _ | ⟨a8, m⟩; · simp at hm
  rcases m with _ | ⟨a9, m⟩; · simp at hm
  rcases m with _ | ⟨a10, m⟩; · simp at hm
  rcases m with _ | ⟨a11, m⟩; · simp at hm
  rcases m with _ | ⟨a12, m⟩; · simp at hm
  rcases m with _ | ⟨a13, m⟩; · simp at hm
  rcases m with _ | ⟨a14, m⟩; · simp at hm
  rcases m with _ | ⟨a15, m⟩; · simp at hm
  rcases m with _ | ⟨a16, m⟩
  · exact ⟨rfl, rfl, rfl⟩
  · simp at hm

/-- C10: when the ground query under an instance misses (`GroundCross`
returns the `-Infinity` sentinel), the Flower and Grass services leave
the instance's Y coordinate unchanged, but the Tree and Bush
`checkGroundY` write `-Infinity` into the instance's Y position, and it
also lands (as `1 + (-Infinity) = -Infinity`) in the Y translation entry
of the transposed shadow-projection matrix, whose X/Z translation
entries hold the instance's X/Z position. -/
theorem groundMissAsymmetry :
    (∀ (gnd : Gnd) (d : FlowerData),
      gnd d.pos.x (d.pos.y.addQ 50) d.pos.z = GndRes.miss →
      (flowerService gnd d).pos.y = d.pos.y) ∧
    (∀ (gnd : Gnd) (d : GrassData),
      gnd d.pos.x (d.pos.y.addQ 50) d.pos.z = GndRes.miss →
      (grassService gnd d).pos.y = d.pos.y) ∧
    (∀ (gnd : Gnd) (d : TreeData), d.shadowModelMtx.length = 16 →
      gnd d.pos.x (d.pos.y.addQ 50) d.pos.z = GndRes.miss →
      (TreePacket.checkGroundY gnd d).pos.y = ERat.negInf ∧
      (TreePacket.checkGroundY gnd d).shadowModelMtx.getD 13 (.fin 0) = ERat.negInf ∧
      (TreePacket.checkGroundY gnd d).shadowModelMtx.getD 12 (.fin 0) = .fin d.pos.x ∧
      (TreePacket.checkGroundY gnd d).shadowModelMtx.getD 14 (.fin 0) = .fin d.pos.z) ∧
    (∀ (gnd : Gnd) (d : BushData), d.shadowModelMtx.length = 16 →
      gnd d.pos.x (d.pos.y.addQ 50) d.pos.z = GndRes.miss →
      (BushPacket.checkGroundY gnd d).pos.y = ERat.negInf ∧
      (BushPacket.checkGroundY gnd d).shadowModelMtx.getD 13 (.fin 0) = ERat.negInf ∧
      (BushPacket.checkGroundY gnd d).shadowModelMtx.getD 12 (.fin 0) = .fin d.pos.x ∧
      (BushPacket.checkGroundY gnd d).shadowModelMtx.getD 14 (.fin 0) = .fin d.pos.z) := by
  refine ⟨?_, ?_, ?_, ?_⟩
  · intro gnd d hmiss
    simp [flowerService, checkGroundY, hmiss]
  · intro gnd d hmiss
    simp [grassService, checkGroundY, hmiss]
  · intro gnd d hlen hmiss
    have hb := buildShadowMtx_translation d.shadowModelMtx hlen d.pos.x d.pos.z
      ERat.negInf (0, 1, 0)
    refine ⟨?_, ?_, ?_, ?_⟩
    · simp [TreePacket.checkGroundY, hmiss]
    · simp only [TreePacket.checkGroundY, hmiss]
      simpa [ERat.addQ] using hb.2.1
    · simp only [TreePacket.checkGroundY, hmiss]
      exact hb.1
    · simp only [TreePacket.checkGroundY, hmiss]
      exact hb.2.2
  · intro gnd d hlen hmiss
    have hb := buildShadowMtx_translation d.shadowModelMtx hlen d.pos.x d.pos.z
      ERat.negInf (0, 1, 0)
    refine ⟨?_, ?_, ?_, ?_⟩
    · simp [BushPacket.checkGroundY, hmiss]
    · simp only [BushPacket.checkGroundY, hmiss]
      simpa [ERat.addQ] using hb.2.1
    · simp only [BushPacket.checkGroundY, hmiss]
      exact hb.1
    · simp only [BushPacket.checkGroundY, hmiss]
      exact hb.2.2

/-- A ground oracle that always misses. -/
def gndMiss : Gnd := fun _ _ _ => GndRes.miss

/-- C10 witness: the tree clause applied to a freshly spawned tree under
an always-missing oracle. -/
theorem groundMissAsymmetry_witness :
    treeInst.shadowModelMtx.length = 16 ∧
      gndMiss treeInst.pos.x (treeInst.pos.y.addQ 50) treeInst.pos.z = GndRes.miss ∧
      ((TreePacket.checkGroundY gndMiss treeInst).pos.y = ERat.negInf ∧
        (TreePacket.checkGroundY gndMiss treeInst).shadowModelMtx.getD 13 (.fin 0) =
          ERat.negInf ∧
        (TreePacket.checkGroundY gndMiss treeInst).shadowModelMtx.getD 12 (.fin 0) =
          .fin treeInst.pos.x ∧
        (TreePacket.checkGroundY gndMiss treeInst).shadowModelMtx.getD 14 (.fin 0) =
          .fin treeInst.pos.z) :=
  ⟨by decide, rfl, groundMissAsymmetry.2.2.1 gndMiss treeInst (by decide) rfl⟩

/-- C4 witness: the theorem applied at frameCount = 7. -/
theorem sequenceEndCommandImmediate_witness :
    STBObject.forward false c4Data 3 (STBObject.initialState 3 0) 7 false [] [] =
      some (false,
        { mFlags := 0, mStatus := .End, mIsSequence := false, mSuspendFrames := 0,
          mWait := 0, pSequence := 0, pSequence_next := 0 },
        [.Begin, .Wait 0, .End], [.Wait, .End]) ∧
      EStatus.Suspend ∉ ([EStatus.Wait, EStatus.End] : List EStatus) :=
  sequenceEndCommandImmediate 7

/-- C7 witness: the spawn-list clause applied at a concrete actor
position, rotation and room. -/
theorem grassSpawnDecode_witness :
    d_a_grass.subload 2 (10, 20, 30) id 5 =
        ((d_a_grass.kSpawnOffsets.getD 1 []).take 15).map
          (fun o => d_a_grass.SpawnReg.grass (vadd o (10, 20, 30)) 5 0) ∧
      (d_a_grass.subload 2 (10, 20, 30) id 5).length = 15 :=
  ⟨grassSpawnDecode.1 (10, 20, 30) id 5,
   grassSpawnDecode.2.2.2.2.2.2 (10, 20, 30) id 5⟩
